import Mathlib

/-!
Shallow embedding of src/kitty/graphics.c: the receiving side of the kitty
graphics (image transmission) protocol.  Structures mirror the C data model
(`LoadData`, `Image`, `GraphicsManager`, `GraphicsCommand`), and the functions
mirror the C functions of the same names.  Machine-integer details that cannot
influence the verified properties (all sizes fit comfortably below 2^64 in the
scenarios quantified over, and the one subtraction `buf_capacity - buf_used`
is exercised only under `buf_used <= buf_capacity`, where size_t subtraction
agrees with Nat subtraction) are modelled with Nat.  The growable C array of
images is modelled as a Lean list (growth/doubling is memory management with
no observable effect); records are addressed by list index where the C code
uses pointers into the array.  External libraries (zlib inflate, libpng) are
modelled as oracle functions supplied in an `Env`, since their code is not
part of this repository; the wrapper logic around them (`inflate_zlib`,
`inflate_png`) is translated from the source.  Character constants are their
ASCII codes: 100 is the letter d, 102 is f, 116 is t, 115 is s, 122 is z.
-/

namespace Kitty

/-- Where `load_data.data` points: nowhere, at the accumulation buffer, or at
the mapped file region (the C field is a raw pointer aliasing one of them). -/
inductive DataPtr
  | null
  | bufPtr
  | mapPtr
deriving Repr, DecidableEq

/-- Transient staging state of an image load (LoadData in graphics.h/graphics.c).
`buf = some bytes` models an allocated accumulation buffer whose written
portion is exactly `bytes` (so `bytes.length = buf_used` in reachable states);
`buf = none` models a NULL buffer pointer.  `mapped_file` likewise holds the
mapped bytes when a file mapping is live. -/
structure LoadData where
  buf : Option (List Nat) := none
  buf_used : Nat := 0
  buf_capacity : Nat := 0
  mapped_file : Option (List Nat) := none
  mapped_file_sz : Nat := 0
  fd : Int := 0
  data_sz : Nat := 0
  is_4byte_aligned : Bool := false
  data : DataPtr := DataPtr.null
deriving Repr, DecidableEq

/-- An image record (Image in graphics.h).  A freshly exposed array slot is
zero-filled by the C code, which is exactly the default field values here. -/
structure Image where
  internal_id : Nat := 0
  client_id : Nat := 0
  width : Nat := 0
  height : Nat := 0
  data_loaded : Bool := false
  refcnt : Nat := 0
  load_data : LoadData := {}
deriving Repr, DecidableEq

/-- The store (GraphicsManager).  The C global `internal_id_counter` (starting
at 1) is carried in the state.  `images_capacity` is dropped: capacity
doubling has no observable effect in the list model. -/
structure GraphicsManager where
  lines : Nat
  columns : Nat
  images : List Image := []
  loading_image : Nat := 0
  internal_id_counter : Nat := 1
deriving Repr, DecidableEq

/-- A parsed graphics command as handed over by the escape-code parser.
`action`, `transmission_type` and `compressed` are character codes (0 when the
key was absent); `payload_sz` is the length of the payload span, which the
upstream parser guarantees to hold at least that many bytes. -/
structure GraphicsCommand where
  action : Nat := 0
  id : Nat := 0
  transmission_type : Nat := 0
  format : Nat := 0
  compressed : Nat := 0
  more : Bool := false
  data_width : Nat := 0
  data_height : Nat := 0
  payload_sz : Nat := 0
deriving Repr, DecidableEq

/-- The errors reported through REPORT_ERROR, by call site. -/
inductive GError
  | unknownAction (a : Nat)
  | unknownFormat (f : Nat)
  | unknownTransmission (t : Nat)
  | unknownCompression (c : Nat)
  | nonexistentImage
  | tooMuchData
  | openFailed
  | inflateFailed
  | pngFailed
  | insufficientData (got expected : Nat)
deriving Repr, DecidableEq

/-- Oracles for the pieces outside this repository: the filesystem (open plus
mmap of a path, `none` on any open/seek/map failure) and the two external
decoders.  `zinf src` is the complete decompressed content of a well-formed,
cleanly terminating deflate stream, or `none` for a corrupt or truncated
stream (zlib then never returns Z_STREAM_END).  `pngdec src` is the decoded
(width, height, RGBA rows bottom-flipped) of a PNG bitstream, or `none` on
any libpng failure. -/
structure Env where
  fs : List Nat → Option (List Nat)
  zinf : List Nat → Option (List Nat)
  pngdec : List Nat → Option (Nat × Nat × List Nat)

/-- Translation of grman_realloc(NULL, lines, columns): a fresh manager. -/
def grman_realloc (lines columns : Nat) : GraphicsManager :=
  { lines := lines, columns := columns }

/-- Translation of free_load_data: frees the accumulation buffer, unmaps the
mapped region and closes the fd.  As in C, `data`, `data_sz` and the
alignment flag are left untouched. -/
def free_load_data (ld : LoadData) : LoadData :=
  { ld with buf := none, buf_used := 0, buf_capacity := 0,
            mapped_file := none, mapped_file_sz := 0, fd := -1 }

/-- Translation of free_image (texture release is a TODO stub in the C). -/
def free_image (img : Image) : Image :=
  { img with load_data := free_load_data img.load_data }

/-- Translation of add_trim_predicate: trims records that are not fully
loaded, and anonymous records with no outside references. -/
def add_trim_predicate (img : Image) : Bool :=
  !img.data_loaded || (img.client_id == 0 && img.refcnt == 0)

/-- Translation of remove_images: the C loop walks the array from the top
index downwards, freeing each record satisfying the predicate and shifting
the suffix left, which preserves the relative order of the survivors; its net
effect on the sequence of records is exactly a filter. -/
def remove_images (self : GraphicsManager) (pred : Image → Bool) :
    GraphicsManager :=
  { self with images := self.images.filter (fun img => !pred img) }

/-- Linear scan returning the index of the first record satisfying `p`,
mirroring the C scan loops that return a pointer into the array. -/
def scanFind (p : Image → Bool) : List Image → Option Nat
  | [] => none
  | img :: rest =>
      if p img then some 0 else Option.map (fun n => n + 1) (scanFind p rest)

/-- Translation of find_or_create_image: for a nonzero id, return the index of
the record with that client id if present (existing = true); otherwise append
a fresh zero-filled slot (ensure_space zero-fills) and return its index. -/
def find_or_create_image (self : GraphicsManager) (id : Nat) :
    GraphicsManager × Nat × Bool :=
  match (if id ≠ 0 then scanFind (fun img => img.client_id == id) self.images
         else none) with
  | some i => (self, i, true)
  | none => ({ self with images := self.images ++ [{}] },
             self.images.length, false)

/-- Translation of img_by_internal_id, returning an index instead of a
pointer. -/
def img_by_internal_id (self : GraphicsManager) (id : Nat) : Option Nat :=
  scanFind (fun img => img.internal_id == id) self.images

/-- Update the record at index `idx` in place (the C code mutates through a
pointer into the array). -/
def modifyImg (self : GraphicsManager) (idx : Nat) (f : Image → Image) :
    GraphicsManager :=
  { self with images := self.images.set idx (f (self.images.getD idx {})) }

/-- The record at index `idx` (call sites only use in-range indices). -/
def imgAt (self : GraphicsManager) (idx : Nat) : Image :=
  self.images.getD idx {}

/-! Named record transformers for the individual field assignments performed
by handle_add_command; each mirrors one or two adjacent C statements. -/

/-- Lines 259-260: release the staging state of a record about to be reused
and reset its loaded flag. -/
def resetRecord (img : Image) : Image :=
  { img with load_data := free_load_data img.load_data, data_loaded := false }

/-- Lines 262-263: assign the fresh internal id and the client id to a newly
created record. -/
def claimRecord (n cid : Nat) (img : Image) : Image :=
  { img with internal_id := n, client_id := cid }

/-- Line 265: copy the declared dimensions into the record. -/
def setDims (g : GraphicsCommand) (img : Image) : Image :=
  { img with width := g.data_width, height := g.data_height }

/-- Lines 270-281: record the expected decoded size and the alignment flag
computed by the format switch. -/
def setExpected (sz : Nat) (al : Bool) (img : Image) : Image :=
  { img with load_data := { img.load_data with
      data_sz := sz, is_4byte_aligned := al } }

/-- Lines 284-287: allocate the direct-medium accumulation buffer. -/
def allocBuf (cap : Nat) (img : Image) : Image :=
  { img with load_data := { img.load_data with
      buf := some [], buf_used := 0, buf_capacity := cap } }

/-- Lines 304-305: append the chunk to the accumulation buffer (memcpy of
payload_sz bytes at offset buf_used, then the buf_used increment). -/
def writeChunk (g : GraphicsCommand) (payload : List Nat) (img : Image) :
    Image :=
  { img with load_data := { img.load_data with
      buf := some (img.load_data.buf.getD [] ++ payload.take g.payload_sz),
      buf_used := img.load_data.buf_used + g.payload_sz } }

/-- Line 306: mark the record fully acquired. -/
def markLoaded (img : Image) : Image :=
  { img with data_loaded := true }

/-- The various error paths: mark the record not loaded. -/
def markNotLoaded (img : Image) : Image :=
  { img with data_loaded := false }

/-- Lines 317-318: store the fd and the mapping established by
mmap_img_file, and the resulting loaded flag (the model merges open and
mmap success, so the flag is true here). -/
def mapFile (content : List Nat) (img : Image) : Image :=
  { img with
    data_loaded := true,
    load_data := { img.load_data with
      fd := 1, mapped_file := some content,
      mapped_file_sz := content.length } }

/-- Replace the whole staging state (used for the inflate_zlib result). -/
def setLoadData (ld : LoadData) (img : Image) : Image :=
  { img with load_data := ld }

/-- Line 354 and lines 364/369: point `data` at the accumulation buffer or
at the mapped region. -/
def setDataPtr (p : DataPtr) (img : Image) : Image :=
  { img with load_data := { img.load_data with data := p } }

/-- Translation of inflate_zlib.  The zlib call sequence is: inflate with
Z_FINISH into a buffer of `data_sz` bytes; the wrapper demands the return
code Z_STREAM_END (the stream is well formed and terminates cleanly, and its
full output fits in the buffer, since output-space exhaustion before stream
end yields Z_BUF_ERROR), and then demands `avail_out = 0` (no leftover space,
so the produced bytes exactly fill the buffer).  On success the staging state
is released by free_load_data and replaced by the decompressed bytes, as in
the C code; on failure the local buffer is freed and nothing changes. -/
def inflate_zlib (zinf : List Nat → Option (List Nat)) (ld : LoadData)
    (src : List Nat) : Option LoadData :=
  match zinf src with
  | none => none
  | some out =>
      if out.length ≤ ld.data_sz then
        if ld.data_sz - out.length = 0 then
          some { free_load_data ld with
                 buf := some out,
                 buf_capacity := ld.data_sz,
                 buf_used := ld.data_sz - (ld.data_sz - out.length) }
        else none
      else none

/-- Translation of inflate_png: on success the staging state is released and
replaced by the decoded RGBA bytes, and width/height are overwritten with the
dimensions reported by the decoder. -/
def inflate_png (pngdec : List Nat → Option (Nat × Nat × List Nat))
    (img : Image) (src : List Nat) : Option Image :=
  match pngdec src with
  | none => none
  | some (w, h, out) =>
      some { img with
             width := w, height := h,
             load_data := { free_load_data img.load_data with
                            buf := some out,
                            buf_capacity := out.length,
                            buf_used := out.length } }

/-- The per-format branch of the switch in handle_add_command: the multiplier
applied to width*height and the alignment flag, or `none` for an unknown
format code.  Formats are RGB = 24, RGBA = 32, PNG = 100; for RGB/RGBA the
multiplier is format/8 and alignment holds for RGBA or a width divisible
by 4 (img->width has just been set to the command's data_width). -/
def format_info (g : GraphicsCommand) : Option (Nat × Bool) :=
  if g.format = 100 then some (4, true)
  else if g.format = 24 ∨ g.format = 32 then
    some (g.format / 8, g.format == 32 || g.data_width % 4 == 0)
  else none

/-- The record-initialisation phase of handle_add_command (the init_img branch,
lines 255-288): sweep stale records, find or create the target record, release
its staging state and reset data_loaded when it already existed or assign a
fresh internal id otherwise, set width/height, compute the expected decoded
size from the format (error on an unknown format code), and for the direct
medium set loading_image when more data follows and allocate the accumulation
buffer.  Returns the updated state with the target index, or the state at the
point of the unknown-format early return. -/
def init_image (self0 : GraphicsManager) (g : GraphicsCommand) (tt : Nat) :
    Except (GraphicsManager × GError) (GraphicsManager × Nat) :=
  let self1 := remove_images self0 add_trim_predicate
  let fc := find_or_create_image self1 g.id
  let self2 := fc.1
  let idx := fc.2.1
  let self3 :=
    if fc.2.2 then
      modifyImg self2 idx resetRecord
    else
      modifyImg { self2 with
                  internal_id_counter := self2.internal_id_counter + 1 } idx
        (claimRecord self2.internal_id_counter g.id)
  let self4 := modifyImg self3 idx (setDims g)
  match format_info g with
  | none => Except.error (self4, GError.unknownFormat g.format)
  | some fi =>
      let sz := g.data_width * g.data_height * fi.1
      let self5 := modifyImg self4 idx (setExpected sz fi.2)
      if tt = 100 then
        let self6 :=
          if g.more then
            { self5 with loading_image := (imgAt self5 idx).internal_id }
          else self5
        let cap := sz + (if g.compressed ≠ 0 ∨ g.format = 100 then 1024
                         else 10)
        let self7 := modifyImg self6 idx (allocBuf cap)
        Except.ok (self7, idx)
      else
        Except.ok (self5, idx)

/-- The continuation branch of handle_add_command (lines 289-296): resolve the
in-progress record by loading_image; on failure clear loading_image and report
that the continuation refers to a nonexistent image. -/
def resolve_loading (self : GraphicsManager) :
    Except (GraphicsManager × GError) (GraphicsManager × Nat) :=
  match img_by_internal_id self self.loading_image with
  | none => Except.error ({ self with loading_image := 0 },
                          GError.nonexistentImage)
  | some idx => Except.ok (self, idx)

/-- The media-acquisition switch of handle_add_command (lines 297-325).  For
the direct medium: reject the chunk when payload_sz is at least the remaining
buffer capacity (before any byte is written), otherwise append payload_sz
payload bytes and, on a final chunk (no more flag), mark the record loaded
and clear loading_image.  For file, temporary file and shared memory: open
and map the named payload through the fs oracle (open/seek/mmap failures are
merged into the `none` case; in C an mmap failure additionally records the fd
before falling into the not-loaded early return, with the same resulting
store).  An unrecognised medium character is reported and ignored. -/
def media_phase (env : Env) (self : GraphicsManager) (idx : Nat)
    (g : GraphicsCommand) (payload : List Nat) (tt : Nat) :
    GraphicsManager × Option GError :=
  if tt = 100 then
    let img := imgAt self idx
    if g.payload_sz ≥ img.load_data.buf_capacity - img.load_data.buf_used then
      (self, some GError.tooMuchData)
    else
      let self' := modifyImg self idx (writeChunk g payload)
      if g.more then (self', none)
      else
        ({ modifyImg self' idx markLoaded with loading_image := 0 }, none)
  else if tt = 102 ∨ tt = 116 ∨ tt = 115 then
    match env.fs payload with
    | none => (self, some GError.openFailed)
    | some content => (modifyImg self idx (mapFile content), none)
  else
    (self, some (GError.unknownTransmission g.transmission_type))

/-- The IB macro of handle_add_command: the bytes the decode stages read,
namely the accumulation buffer when allocated (its used portion), else the
mapped region. -/
def current_bytes (ld : LoadData) : List Nat :=
  match ld.buf with
  | some b => b
  | none => ld.mapped_file.getD []

/-- The compression switch of handle_add_command (lines 331-343): deflate
decompression through inflate_zlib when the compression code is z (122), a
no-op for code 0, and an error (after which the caller marks the record not
loaded) for every other code. -/
def compression_stage (env : Env) (self : GraphicsManager) (idx : Nat)
    (g : GraphicsCommand) : Except GError GraphicsManager :=
  if g.compressed = 122 then
    match inflate_zlib env.zinf (imgAt self idx).load_data
        (current_bytes (imgAt self idx).load_data) with
    | none => Except.error GError.inflateFailed
    | some ld => Except.ok (modifyImg self idx (setLoadData ld))
  else if g.compressed = 0 then Except.ok self
  else Except.error (GError.unknownCompression g.compressed)

/-- The container-format switch of handle_add_command (lines 344-352): PNG
decode through inflate_png for format 100, a no-op otherwise. -/
def png_stage (env : Env) (self : GraphicsManager) (idx : Nat)
    (g : GraphicsCommand) : Except GError GraphicsManager :=
  if g.format = 100 then
    match inflate_png env.pngdec (imgAt self idx)
        (current_bytes (imgAt self idx).load_data) with
    | none => Except.error GError.pngFailed
    | some img' => Except.ok (modifyImg self idx (fun _ => img'))
  else Except.ok self

/-- Lines 354-358: point `data` at the buffer, then validate that the buffer
holds at least the expected number of decoded bytes. -/
def final_check (self : GraphicsManager) (idx : Nat) :
    GraphicsManager × Option GError :=
  let self3 := modifyImg self idx (setDataPtr DataPtr.bufPtr)
  let img3 := imgAt self3 idx
  if img3.load_data.buf_used < img3.load_data.data_sz then
    (modifyImg self3 idx markNotLoaded,
     some (GError.insufficientData img3.load_data.buf_used
             img3.load_data.data_sz))
  else (self3, none)

/-- The post-acquisition processing of handle_add_command (lines 326-371).
Nothing happens until the record is fully acquired (data_loaded).  When the
command declares compression or the PNG format, run inflate (unknown
compression codes error out) and then the PNG decoder in that order, point
`data` at the buffer and check the buffer holds at least data_sz bytes;
otherwise validate the acquired byte count (buffer for direct, mapping size
for files) against data_sz and point `data` at the acquired bytes.  Every
failure marks the record not loaded. -/
def process_phase (env : Env) (self : GraphicsManager) (idx : Nat)
    (g : GraphicsCommand) (tt : Nat) : GraphicsManager × Option GError :=
  let img := imgAt self idx
  if !img.data_loaded then (self, none)
  else if g.compressed ≠ 0 ∨ g.format = 100 then
    match compression_stage env self idx g with
    | Except.error e => (modifyImg self idx markNotLoaded, some e)
    | Except.ok self1 =>
        match png_stage env self1 idx g with
        | Except.error e => (modifyImg self1 idx markNotLoaded, some e)
        | Except.ok self2 => final_check self2 idx
  else if tt = 100 then
    if img.load_data.buf_used < img.load_data.data_sz then
      (modifyImg self idx markNotLoaded,
       some (GError.insufficientData img.load_data.buf_used
               img.load_data.data_sz))
    else (modifyImg self idx (setDataPtr DataPtr.bufPtr), none)
  else
    if img.load_data.mapped_file_sz < img.load_data.data_sz then
      (modifyImg self idx markNotLoaded,
       some (GError.insufficientData img.load_data.mapped_file_sz
               img.load_data.data_sz))
    else (modifyImg self idx (setDataPtr DataPtr.mapPtr), none)

/-- Translation of handle_add_command: an empty transmission-type key defaults
to direct (letter d); a command is a continuation exactly when the medium is
direct, the more flag is set and a load is in progress, otherwise the record
is (re)initialised; then the media acquisition and processing phases run, each
early return of the C code propagating its reported error. -/
def handle_add_command (env : Env) (self : GraphicsManager)
    (g : GraphicsCommand) (payload : List Nat) :
    GraphicsManager × Option GError :=
  let tt := if g.transmission_type = 0 then 100 else g.transmission_type
  match (if tt = 100 ∧ g.more ∧ self.loading_image ≠ 0
         then resolve_loading self
         else init_image self g tt) with
  | Except.error (self', e) => (self', some e)
  | Except.ok (self1, idx) =>
      match media_phase env self1 idx g payload tt with
      | (self2, some e) => (self2, some e)
      | (self2, none) => process_phase env self2 idx g tt

/-- Translation of grman_handle_command: action 0 and action t (116) perform
the add command; every other action code is reported and ignored. -/
def grman_handle_command (env : Env) (self : GraphicsManager)
    (g : GraphicsCommand) (payload : List Nat) :
    GraphicsManager × Option GError :=
  if g.action = 0 ∨ g.action = 116 then handle_add_command env self g payload
  else (self, some (GError.unknownAction g.action))

/-- Run a sequence of commands, each with its own environment and payload,
keeping only the state (errors go to the diagnostic channel). -/
def runCmds (cmds : List (Env × GraphicsCommand × List Nat))
    (self : GraphicsManager) : GraphicsManager :=
  cmds.foldl (fun s c => (grman_handle_command c.1 s c.2.1 c.2.2).1) self

/-- An environment whose filesystem is empty and whose decoders reject
everything; used for concrete direct-medium scenarios. -/
def env0 : Env :=
  { fs := fun _ => none, zinf := fun _ => none, pngdec := fun _ => none }

/-- The identity-carrying fields of a record: internal id, client id and
reference count.  Every phase of command handling except record creation
preserves them pointwise. -/
def identKey (img : Image) : Nat × Nat × Nat :=
  (img.internal_id, img.client_id, img.refcnt)

/-- A record transformer that does not touch internal id, client id or
reference count. -/
def KeyPreserving (f : Image → Image) : Prop :=
  ∀ img, identKey (f img) = identKey img

/-- Well-formedness of the identifier bookkeeping, true of every state
reachable from a fresh manager: the counter is at least its initial value 1,
loading_image is strictly below the counter (0 included), every record has a
nonzero internal id strictly below the counter, and internal ids are
pairwise distinct. -/
def IdWF (self : GraphicsManager) : Prop :=
  1 ≤ self.internal_id_counter ∧
  self.loading_image < self.internal_id_counter ∧
  (∀ img ∈ self.images, 0 < img.internal_id ∧
      img.internal_id < self.internal_id_counter) ∧
  (self.images.map Image.internal_id).Nodup

/-- No two records share a nonzero client id. -/
def NoClientCollision (self : GraphicsManager) : Prop :=
  List.Pairwise (fun a b => a = 0 ∨ a ≠ b)
    (self.images.map Image.client_id)

/-- The load_data produced by the initialisation phase for a record whose
previous load_data was `old`: staging released, expected size and alignment
set, and for the direct medium a fresh empty accumulation buffer of the
computed capacity. -/
def initLoadData (old : LoadData) (g : GraphicsCommand) (tt : Nat)
    (fi : Nat × Bool) : LoadData :=
  let sz := g.data_width * g.data_height * fi.1
  let base := { free_load_data old with
                data_sz := sz, is_4byte_aligned := fi.2 }
  if tt = 100 then
    { base with buf := some [], buf_used := 0,
                buf_capacity :=
                  sz + (if g.compressed ≠ 0 ∨ g.format = 100 then 1024
                        else 10) }
  else base

/-- An RGBA 2x1 direct single-chunk transmit command declaring 8 payload
bytes. -/
def cmdRGBA8 : GraphicsCommand :=
  { action := 0, id := 0, transmission_type := 0, format := 32,
    compressed := 0, more := false, data_width := 2, data_height := 1,
    payload_sz := 8 }

/-- Eight payload bytes for the 2x1 RGBA scenarios. -/
def bytes8 : List Nat := [1, 2, 3, 4, 5, 6, 7, 8]

/-- A record mid-transmission with an allocated 5-byte accumulation buffer,
used to exercise the capacity guard at concrete inputs. -/
def capRecord : Image :=
  { internal_id := 1, client_id := 0,
    load_data := { buf := some [], buf_used := 0, buf_capacity := 5,
                   data_sz := 4 } }

/-- A one-record store holding `capRecord`. -/
def capSelf : GraphicsManager :=
  { lines := 0, columns := 0, images := [capRecord], loading_image := 0,
    internal_id_counter := 2 }

/-- A store obtained by loading an 8-byte RGBA 2x1 image under client id 5,
used to exercise client-id reuse at a concrete input. -/
def selfClient5 : GraphicsManager :=
  (grman_handle_command env0 (grman_realloc 24 80)
    { cmdRGBA8 with id := 5 } bytes8).1

/-- Eight replacement payload bytes. -/
def bytes9 : List Nat := [9, 10, 11, 12, 13, 14, 15, 16]

/-- The identity keys of all records in store order. -/
def keysOf (self : GraphicsManager) : List (Nat × Nat × Nat) :=
  self.images.map identKey

/-- The internal ids of all records in store order. -/
def idsOf (self : GraphicsManager) : List Nat :=
  self.images.map Image.internal_id

/-- The client ids of all records in store order. -/
def clientsOf (self : GraphicsManager) : List Nat :=
  self.images.map Image.client_id

/-- The load_data of a freshly created record after the initialisation phase:
all fields zero except the expected size, the alignment flag, and (direct
medium) the newly allocated empty accumulation buffer. -/
def freshLoadData (g : GraphicsCommand) (tt : Nat) (fi : Nat × Bool) :
    LoadData :=
  let sz := g.data_width * g.data_height * fi.1
  if tt = 100 then
    { data_sz := sz, is_4byte_aligned := fi.2, buf := some [], buf_used := 0,
      buf_capacity :=
        sz + (if g.compressed ≠ 0 ∨ g.format = 100 then 1024 else 10) }
  else
    { data_sz := sz, is_4byte_aligned := fi.2 }

/-- A freshly created record after the initialisation phase. -/
def freshRec (g : GraphicsCommand) (tt n : Nat) (fi : Nat × Bool) : Image :=
  { internal_id := n, client_id := g.id, width := g.data_width,
    height := g.data_height, data_loaded := false, refcnt := 0,
    load_data := freshLoadData g tt fi }

/-- An existing record after the initialisation phase reset it for reuse:
staging released, dimensions and expected size overwritten, loaded flag
cleared, and (direct medium) a fresh empty accumulation buffer. -/
def resetImg (old : Image) (g : GraphicsCommand) (tt : Nat)
    (fi : Nat × Bool) : Image :=
  { old with data_loaded := false, width := g.data_width,
             height := g.data_height,
             load_data := initLoadData old.load_data g tt fi }

/-- A state reached from `s` by rewriting the record at `idx` in place
without touching its identity key, any other record, the counter, or
loading_image. -/
def FormAt (s st : GraphicsManager) (idx : Nat) : Prop :=
  ∃ R, st = { s with images := s.images.set idx R } ∧
    identKey R = identKey (imgAt s idx)

/-- The per-command state-change footprint of grman_handle_command on the
record population, relative to the pre-sweep store: either the sweep did not
run and every identity key, as well as the counter, is untouched, or the
sweep ran and the surviving keys are those of the swept store, with a fresh
record (carrying the old counter as internal id, the command's client id and
refcnt 0) appended when find_or_create did not find the client id.  In the
fresh case the command's client id is zero or absent from the swept store.
Separately, the final loading_image is zero, or unchanged, or the internal
id of a record in the final store. -/
def StepShape (self : GraphicsManager) (g : GraphicsCommand)
    (st : GraphicsManager) : Prop :=
  ((keysOf st = keysOf self ∧
      st.internal_id_counter = self.internal_id_counter) ∨
   (keysOf st = keysOf (remove_images self add_trim_predicate) ∧
      st.internal_id_counter = self.internal_id_counter) ∨
   (keysOf st = keysOf (remove_images self add_trim_predicate) ++
        [(self.internal_id_counter, g.id, 0)] ∧
      st.internal_id_counter = self.internal_id_counter + 1 ∧
      (g.id = 0 ∨ ∀ img ∈ (remove_images self add_trim_predicate).images,
         img.client_id ≠ g.id))) ∧
  (st.loading_image = 0 ∨ st.loading_image = self.loading_image ∨
   st.loading_image ∈ idsOf st)

/-! Helper lemmas about lists and the scan primitive. -/

theorem set_getD_self (l : List α) (i : Nat) (d : α) :
    l.set i (l.getD i d) = l := by
  induction l generalizing i with
  | nil => rfl
  | cons a t ih =>
      cases i with
      | zero => rfl
      | succ j => simpa [List.set, List.getD] using ih j

theorem getD_set_self (l : List α) (i : Nat) (a d : α)
    (h : i < l.length) : (l.set i a).getD i d = a := by
  induction l generalizing i with
  | nil => simp at h
  | cons b t ih =>
      cases i with
      | zero => rfl
      | succ j =>
          simp only [List.set, List.getD]
          exact ih j (by simpa using h)

theorem map_set_ident (l : List α) (i : Nat) (b : α) (k : α → β) (d : α)
    (hf : k b = k (l.getD i d)) :
    (l.set i b).map k = l.map k := by
  induction l generalizing i b with
  | nil => rfl
  | cons a t ih =>
      cases i with
      | zero =>
          rw [List.getD_cons_zero] at hf
          simp only [List.set, List.map_cons, hf]
      | succ j =>
          rw [List.getD_cons_succ] at hf
          simp only [List.set, List.map_cons]
          rw [ih j b hf]

theorem set_append_last (l : List α) (a b : α) :
    (l ++ [a]).set l.length b = l ++ [b] := by
  induction l with
  | nil => rfl
  | cons x t ih => simp [List.set, ih]

theorem getD_append_last (l : List α) (a d : α) :
    (l ++ [a]).getD l.length d = a := by
  induction l with
  | nil => rfl
  | cons x t _ => simp

theorem scanFind_eq_none_iff (p : Image → Bool) (l : List Image) :
    scanFind p l = none ↔ ∀ x ∈ l, p x = false := by
  induction l with
  | nil => simp [scanFind]
  | cons a t ih =>
      by_cases h : p a
      · simp [scanFind, h]
      · simp only [scanFind, if_neg h, List.mem_cons]
        constructor
        · intro hn x hx
          rcases hx with rfl | hx
          · simpa using h
          · exact (ih.mp (by cases hsf : scanFind p t <;>
              simp [hsf] at hn ⊢)) x hx
        · intro hall
          have : scanFind p t = none := ih.mpr fun x hx => hall x (Or.inr hx)
          simp [this]

theorem scanFind_isSome_of_mem (p : Image → Bool) (l : List Image)
    (x : Image) (hx : x ∈ l) (hp : p x = true) :
    (scanFind p l).isSome := by
  induction l with
  | nil => simp at hx
  | cons a t ih =>
      by_cases h : p a
      · simp [scanFind, h]
      · rcases List.mem_cons.mp hx with rfl | hx'
        · exact absurd hp (by simpa using h)
        · have := ih hx'
          cases hsf : scanFind p t with
          | none => rw [hsf] at this; simp at this
          | some i => simp [scanFind, h, hsf]

theorem scanFind_some (p : Image → Bool) (l : List Image) (i : Nat) (d : Image)
    (h : scanFind p l = some i) :
    i < l.length ∧ p (l.getD i d) = true := by
  induction l generalizing i with
  | nil => simp [scanFind] at h
  | cons a t ih =>
      by_cases hp : p a
      · simp [scanFind, hp] at h
        subst h
        simpa [List.getD] using hp
      · simp only [scanFind, if_neg hp] at h
        cases hsf : scanFind p t with
        | none => rw [hsf] at h; simp at h
        | some j =>
            rw [hsf] at h
            simp at h
            subst h
            have := ih j hsf
            exact ⟨by simpa using Nat.succ_lt_succ this.1,
                   by simpa [List.getD] using this.2⟩

theorem filter_keep_idem (l : List Image) (p : Image → Bool) :
    (l.filter fun i => !p i).filter (fun i => !p i) =
      l.filter fun i => !p i := by
  induction l with
  | nil => rfl
  | cons a t ih =>
      by_cases h : p a
      · simp [List.filter, h, ih]
      · simp [List.filter, h, ih]

theorem getD_eq_default_of_le (l : List α) (i : Nat) (d : α)
    (h : l.length ≤ i) : l.getD i d = d := by
  induction l generalizing i with
  | nil => cases i <;> rfl
  | cons a t ih =>
      cases i with
      | zero => simp at h
      | succ j => simpa [List.getD] using ih j (by simpa using h)

theorem imgAt_modifyImg_self (self : GraphicsManager) (idx : Nat)
    (f : Image → Image) (h : idx < self.images.length) :
    imgAt (modifyImg self idx f) idx = f (imgAt self idx) := by
  simp only [imgAt, modifyImg]
  exact getD_set_self _ _ _ _ h

theorem length_modifyImg (self : GraphicsManager) (idx : Nat)
    (f : Image → Image) :
    (modifyImg self idx f).images.length = self.images.length := by
  simp [modifyImg]

theorem getD_mem (l : List α) (i : Nat) (d : α) (h : i < l.length) :
    l.getD i d ∈ l := by
  induction l generalizing i with
  | nil => simp at h
  | cons a t ih =>
      cases i with
      | zero => exact List.mem_cons_self _ _
      | succ j =>
          rw [List.getD_cons_succ]
          exact List.mem_cons_of_mem _ (ih j (by simpa using h))

theorem modifyImg_modifyImg (s : GraphicsManager) (idx : Nat)
    (f g' : Image → Image) :
    modifyImg (modifyImg s idx f) idx g' =
      modifyImg s idx (fun img => g' (f img)) := by
  by_cases h : idx < s.images.length
  · simp only [modifyImg]
    rw [getD_set_self _ _ _ _ h, List.set_set]
  · have hle : s.images.length ≤ idx := Nat.le_of_not_lt h
    simp [modifyImg, List.set_eq_of_length_le hle]

theorem modifyImg_setLoading (s : GraphicsManager) (L idx : Nat)
    (f : Image → Image) :
    modifyImg { s with loading_image := L } idx f =
      { modifyImg s idx f with loading_image := L } := rfl

theorem formAt_refl (s : GraphicsManager) (idx : Nat) : FormAt s s idx := by
  refine ⟨imgAt s idx, ?_, rfl⟩
  show s = { s with images := s.images.set idx (s.images.getD idx {}) }
  rw [set_getD_self]

theorem formAt_trans (s st1 st2 : GraphicsManager) (idx : Nat)
    (h1 : FormAt s st1 idx) (h2 : FormAt st1 st2 idx) : FormAt s st2 idx := by
  obtain ⟨R1, rfl, k1⟩ := h1
  obtain ⟨R2, rfl, k2⟩ := h2
  refine ⟨R2, by simp only [List.set_set], ?_⟩
  by_cases h : idx < s.images.length
  · rw [k2]
    show identKey ((s.images.set idx R1).getD idx {}) = _
    rw [getD_set_self _ _ _ _ h]
    exact k1
  · rw [k2]
    show identKey ((s.images.set idx R1).getD idx {}) = _
    rw [List.set_eq_of_length_le (Nat.le_of_not_lt h)]
    rfl

theorem formAt_modify (s st1 : GraphicsManager) (idx : Nat)
    (f : Image → Image) (h1 : FormAt s st1 idx)
    (hf : identKey (f (imgAt st1 idx)) = identKey (imgAt st1 idx)) :
    FormAt s (modifyImg st1 idx f) idx :=
  formAt_trans s st1 _ idx h1 ⟨f (imgAt st1 idx), rfl, hf⟩

theorem formAt_spec (s st : GraphicsManager) (idx : Nat)
    (h : FormAt s st idx) :
    keysOf st = keysOf s ∧
    st.internal_id_counter = s.internal_id_counter ∧
    st.loading_image = s.loading_image ∧
    st.images.length = s.images.length := by
  obtain ⟨R, rfl, k⟩ := h
  exact ⟨map_set_ident _ _ _ _ _ k, rfl, rfl, by simp⟩

theorem inflate_png_identKey (dec : List Nat → Option (Nat × Nat × List Nat))
    (img : Image) (src : List Nat) (img' : Image)
    (h : inflate_png dec img src = some img') :
    identKey img' = identKey img := by
  cases hd : dec src with
  | none => rw [inflate_png, hd] at h; cases h
  | some t =>
      obtain ⟨w, ht, out⟩ := t
      rw [inflate_png, hd] at h
      simp only [Option.some.injEq] at h
      subst h
      rfl

theorem compression_stage_form (env : Env) (s : GraphicsManager) (idx : Nat)
    (g : GraphicsCommand) (st1 : GraphicsManager)
    (h : compression_stage env s idx g = Except.ok st1) : FormAt s st1 idx := by
  unfold compression_stage at h
  by_cases hz : g.compressed = 122
  · rw [if_pos hz] at h
    cases hi : inflate_zlib env.zinf (imgAt s idx).load_data
        (current_bytes (imgAt s idx).load_data) with
    | none => rw [hi] at h; cases h
    | some ld =>
        rw [hi] at h
        simp only [Except.ok.injEq] at h
        subst h
        exact formAt_modify _ _ _ _ (formAt_refl s idx) rfl
  · rw [if_neg hz] at h
    by_cases h0 : g.compressed = 0
    · rw [if_pos h0] at h
      simp only [Except.ok.injEq] at h
      subst h
      exact formAt_refl s idx
    · rw [if_neg h0] at h; cases h

theorem png_stage_form (env : Env) (s : GraphicsManager) (idx : Nat)
    (g : GraphicsCommand) (st1 : GraphicsManager)
    (h : png_stage env s idx g = Except.ok st1) : FormAt s st1 idx := by
  unfold png_stage at h
  by_cases hp : g.format = 100
  · rw [if_pos hp] at h
    cases hi : inflate_png env.pngdec (imgAt s idx)
        (current_bytes (imgAt s idx).load_data) with
    | none => rw [hi] at h; cases h
    | some img' =>
        rw [hi] at h
        simp only [Except.ok.injEq] at h
        subst h
        exact formAt_modify _ _ _ _ (formAt_refl s idx)
          (inflate_png_identKey _ _ _ _ hi)
  · rw [if_neg hp] at h
    simp only [Except.ok.injEq] at h
    subst h
    exact formAt_refl s idx

theorem final_check_form (s : GraphicsManager) (idx : Nat) :
    FormAt s (final_check s idx).1 idx := by
  by_cases hc : (imgAt (modifyImg s idx (setDataPtr DataPtr.bufPtr))
        idx).load_data.buf_used <
      (imgAt (modifyImg s idx (setDataPtr DataPtr.bufPtr))
        idx).load_data.data_sz
  · have he : (final_check s idx).1 =
        modifyImg (modifyImg s idx (setDataPtr DataPtr.bufPtr)) idx
          markNotLoaded := by
      simp [final_check, hc]
    rw [he]
    exact formAt_modify _ _ _ _
      (formAt_modify _ _ _ _ (formAt_refl s idx) rfl) rfl
  · have he : (final_check s idx).1 =
        modifyImg s idx (setDataPtr DataPtr.bufPtr) := by
      simp [final_check, hc]
    rw [he]
    exact formAt_modify _ _ _ _ (formAt_refl s idx) rfl

theorem process_phase_form (env : Env) (s : GraphicsManager) (idx : Nat)
    (g : GraphicsCommand) (tt : Nat) :
    FormAt s (process_phase env s idx g tt).1 idx := by
  cases hL : (imgAt s idx).data_loaded with
  | false =>
      have he : process_phase env s idx g tt = (s, none) := by
        simp [process_phase, hL]
      rw [he]
      exact formAt_refl s idx
  | true =>
      by_cases hNP : g.compressed ≠ 0 ∨ g.format = 100
      · cases hcs : compression_stage env s idx g with
        | error e =>
            have he : process_phase env s idx g tt =
                (modifyImg s idx markNotLoaded, some e) := by
              simp [process_phase, hL, hNP, hcs]
            rw [he]
            exact formAt_modify _ _ _ _ (formAt_refl s idx) rfl
        | ok st1 =>
            have h1 := compression_stage_form env s idx g st1 hcs
            cases hps : png_stage env st1 idx g with
            | error e =>
                have he : process_phase env s idx g tt =
                    (modifyImg st1 idx markNotLoaded, some e) := by
                  simp [process_phase, hL, hNP, hcs, hps]
                rw [he]
                exact formAt_modify _ _ _ _ h1 rfl
            | ok st2 =>
                have h2 := png_stage_form env st1 idx g st2 hps
                have he : process_phase env s idx g tt =
                    final_check st2 idx := by
                  simp [process_phase, hL, hNP, hcs, hps]
                rw [he]
                exact formAt_trans _ _ _ _ (formAt_trans _ _ _ _ h1 h2)
                  (final_check_form st2 idx)
      · by_cases htt : tt = 100
        · by_cases hc : (imgAt s idx).load_data.buf_used <
              (imgAt s idx).load_data.data_sz
          · have he : (process_phase env s idx g tt).1 =
                modifyImg s idx markNotLoaded := by
              simp [process_phase, hL, hNP, htt, hc]
            rw [he]
            exact formAt_modify _ _ _ _ (formAt_refl s idx) rfl
          · have he : (process_phase env s idx g tt).1 =
                modifyImg s idx (setDataPtr DataPtr.bufPtr) := by
              simp [process_phase, hL, hNP, htt, hc]
            rw [he]
            exact formAt_modify _ _ _ _ (formAt_refl s idx) rfl
        · by_cases hc : (imgAt s idx).load_data.mapped_file_sz <
              (imgAt s idx).load_data.data_sz
          · have he : (process_phase env s idx g tt).1 =
                modifyImg s idx markNotLoaded := by
              simp [process_phase, hL, hNP, htt, hc]
            rw [he]
            exact formAt_modify _ _ _ _ (formAt_refl s idx) rfl
          · have he : (process_phase env s idx g tt).1 =
                modifyImg s idx (setDataPtr DataPtr.mapPtr) := by
              simp [process_phase, hL, hNP, htt, hc]
            rw [he]
            exact formAt_modify _ _ _ _ (formAt_refl s idx) rfl

theorem media_phase_form (env : Env) (s : GraphicsManager) (idx : Nat)
    (g : GraphicsCommand) (payload : List Nat) (tt : Nat) :
    ∃ R L, (media_phase env s idx g payload tt).1 =
        { s with images := s.images.set idx R, loading_image := L } ∧
      identKey R = identKey (imgAt s idx) ∧
      (L = 0 ∨ L = s.loading_image) := by
  by_cases h1 : tt = 100
  · by_cases h2 : (imgAt s idx).load_data.buf_capacity -
        (imgAt s idx).load_data.buf_used ≤ g.payload_sz
    · have he : (media_phase env s idx g payload tt).1 = s := by
        simp [media_phase, h1, h2]
      rw [he]
      refine ⟨imgAt s idx, s.loading_image, ?_, rfl, Or.inr rfl⟩
      show s = { s with images := s.images.set idx (s.images.getD idx {}) }
      rw [set_getD_self]
    · cases h3 : g.more with
      | true =>
          have he : (media_phase env s idx g payload tt).1 =
              modifyImg s idx (writeChunk g payload) := by
            simp [media_phase, h1, h2, h3]
          rw [he]
          exact ⟨writeChunk g payload (imgAt s idx), s.loading_image, rfl,
            rfl, Or.inr rfl⟩
      | false =>
          have he : (media_phase env s idx g payload tt).1 =
              { modifyImg (modifyImg s idx (writeChunk g payload)) idx
                  markLoaded with loading_image := 0 } := by
            simp [media_phase, h1, h2, h3]
          rw [he, modifyImg_modifyImg]
          exact ⟨(fun img => markLoaded (writeChunk g payload img))
            (imgAt s idx), 0, rfl, rfl, Or.inl rfl⟩
  · by_cases h4 : tt = 102 ∨ tt = 116 ∨ tt = 115
    · cases h5 : env.fs payload with
      | none =>
          have he : (media_phase env s idx g payload tt).1 = s := by
            simp [media_phase, h1, h4, h5]
          rw [he]
          refine ⟨imgAt s idx, s.loading_image, ?_, rfl, Or.inr rfl⟩
          show s = { s with
            images := s.images.set idx (s.images.getD idx {}) }
          rw [set_getD_self]
      | some content =>
          have he : (media_phase env s idx g payload tt).1 =
              modifyImg s idx (mapFile content) := by
            simp [media_phase, h1, h4, h5]
          rw [he]
          exact ⟨mapFile content (imgAt s idx), s.loading_image, rfl, rfl,
            Or.inr rfl⟩
    · have he : (media_phase env s idx g payload tt).1 = s := by
        simp [media_phase, h1, h4]
      rw [he]
      refine ⟨imgAt s idx, s.loading_image, ?_, rfl, Or.inr rfl⟩
      show s = { s with images := s.images.set idx (s.images.getD idx {}) }
      rw [set_getD_self]

theorem media_phase_spec (env : Env) (s : GraphicsManager) (idx : Nat)
    (g : GraphicsCommand) (payload : List Nat) (tt : Nat) :
    keysOf (media_phase env s idx g payload tt).1 = keysOf s ∧
    (media_phase env s idx g payload tt).1.internal_id_counter =
      s.internal_id_counter ∧
    ((media_phase env s idx g payload tt).1.loading_image = 0 ∨
     (media_phase env s idx g payload tt).1.loading_image =
       s.loading_image) := by
  obtain ⟨R, L, he, k, hL⟩ := media_phase_form env s idx g payload tt
  rw [he]
  exact ⟨map_set_ident _ _ _ _ _ k, rfl, hL⟩

theorem idsOf_eq_keysOf_map (s : GraphicsManager) :
    idsOf s = (keysOf s).map Prod.fst := by
  rw [keysOf, List.map_map]
  rfl

theorem clientsOf_eq_keysOf_map (s : GraphicsManager) :
    clientsOf s = (keysOf s).map (fun k => k.2.1) := by
  rw [keysOf, List.map_map]
  rfl

theorem init_image_existing_eq (self : GraphicsManager)
    (g : GraphicsCommand) (tt : Nat) (j : Nat) (fi : Nat × Bool)
    (hid : g.id ≠ 0)
    (hscan : scanFind (fun img => img.client_id == g.id)
        ((remove_images self add_trim_predicate).images) = some j)
    (hfi : format_info g = some fi) :
    init_image self g tt = Except.ok
      ({ self with
         images := (self.images.filter fun i => !add_trim_predicate i).set j
           (resetImg ((self.images.filter fun i => !add_trim_predicate i).getD
              j {}) g tt fi),
         loading_image := if tt = 100 ∧ g.more then
           ((self.images.filter fun i => !add_trim_predicate i).getD j
             {}).internal_id else self.loading_image }, j) := by
  have hb : j < (self.images.filter fun i => !add_trim_predicate i).length :=
    (scanFind_some _ _ _ {} (by
      simpa [remove_images] using hscan)).1
  have hscan' : scanFind (fun img => img.client_id == g.id)
      (List.filter (fun img => !add_trim_predicate img) self.images) =
        some j := by
    simpa [remove_images] using hscan
  have hset2 : ∀ b c : Image,
      ((List.filter (fun img => !add_trim_predicate img) self.images).set j
          b).set j c =
        (List.filter (fun img => !add_trim_predicate img) self.images).set j
          c := fun b c => List.set_set b c _ j
  have hget : ∀ b : Image,
      ((List.filter (fun img => !add_trim_predicate img) self.images).set j
          b)[j]? = some b :=
    fun b => List.getElem?_set_self hb
  by_cases htt : tt = 100
  · cases hmore : g.more with
    | true =>
        simp [init_image, find_or_create_image, remove_images, hid, hscan',
          hfi, htt, hmore, hset2, hget, modifyImg, imgAt, resetImg,
          initLoadData, allocBuf, setExpected, setDims, resetRecord,
          free_load_data]
    | false =>
        simp [init_image, find_or_create_image, remove_images, hid, hscan',
          hfi, htt, hmore, hset2, hget, modifyImg, imgAt, resetImg,
          initLoadData, allocBuf, setExpected, setDims, resetRecord,
          free_load_data]
  · simp [init_image, find_or_create_image, remove_images, hid, hscan', hfi,
      htt, hset2, hget, modifyImg, imgAt, resetImg, initLoadData, allocBuf,
      setExpected, setDims, resetRecord, free_load_data]

theorem init_image_fresh_eq (self : GraphicsManager) (g : GraphicsCommand)
    (tt : Nat) (fi : Nat × Bool)
    (hnone : (if g.id ≠ 0 then
        scanFind (fun img => img.client_id == g.id)
          ((remove_images self add_trim_predicate).images)
      else none) = none)
    (hfi : format_info g = some fi) :
    init_image self g tt = Except.ok
      ({ self with
         images := (self.images.filter fun i => !add_trim_predicate i) ++
           [freshRec g tt self.internal_id_counter fi],
         loading_image := if tt = 100 ∧ g.more then self.internal_id_counter
           else self.loading_image,
         internal_id_counter := self.internal_id_counter + 1 },
       (self.images.filter fun i => !add_trim_predicate i).length) := by
  have hnone' : (if g.id ≠ 0 then
      scanFind (fun img => img.client_id == g.id)
        (List.filter (fun img => !add_trim_predicate img) self.images)
    else none) = none := by
    simpa [remove_images] using hnone
  by_cases htt : tt = 100
  · cases hmore : g.more with
    | true =>
        simp [init_image, find_or_create_image, remove_images, hnone', hfi,
          htt, hmore, modifyImg_modifyImg, modifyImg_setLoading, modifyImg,
          imgAt, set_append_last, getD_append_last, freshRec, freshLoadData,
          claimRecord, setDims, setExpected, allocBuf]
    | false =>
        simp [init_image, find_or_create_image, remove_images, hnone', hfi,
          htt, hmore, modifyImg_modifyImg, modifyImg_setLoading, modifyImg,
          imgAt, set_append_last, getD_append_last, freshRec, freshLoadData,
          claimRecord, setDims, setExpected, allocBuf]
  · simp [init_image, find_or_create_image, remove_images, hnone', hfi, htt,
      modifyImg_modifyImg, modifyImg_setLoading, modifyImg, imgAt,
      set_append_last, getD_append_last, freshRec, freshLoadData, claimRecord,
      setDims, setExpected, allocBuf]

theorem init_image_error_shape (self : GraphicsManager)
    (g : GraphicsCommand) (tt : Nat) (st' : GraphicsManager) (e : GError)
    (h : init_image self g tt = Except.error (st', e)) :
    e = GError.unknownFormat g.format ∧
    st'.loading_image = self.loading_image ∧
    ((keysOf st' = keysOf (remove_images self add_trim_predicate) ∧
      st'.internal_id_counter = self.internal_id_counter) ∨
     (keysOf st' = keysOf (remove_images self add_trim_predicate) ++
        [(self.internal_id_counter, g.id, 0)] ∧
      st'.internal_id_counter = self.internal_id_counter + 1 ∧
      (g.id = 0 ∨ ∀ img ∈ (remove_images self add_trim_predicate).images,
        img.client_id ≠ g.id))) := by
  cases hfc : (if g.id ≠ 0 then
      scanFind (fun img => img.client_id == g.id)
        ((remove_images self add_trim_predicate).images)
    else none) with
  | some j =>
      have hid : g.id ≠ 0 := by
        by_contra hz
        rw [if_neg (fun hne => hne hz)] at hfc
        cases hfc
      have hscan : scanFind (fun img => img.client_id == g.id)
          ((remove_images self add_trim_predicate).images) = some j := by
        rwa [if_pos hid] at hfc
      have hscan' : scanFind (fun img => img.client_id == g.id)
          (List.filter (fun img => !add_trim_predicate img) self.images) =
            some j := by
        simpa [remove_images] using hscan
      cases hfi : format_info g with
      | some fi =>
          rw [init_image_existing_eq self g tt j fi hid hscan hfi] at h
          cases h
      | none =>
          have he : init_image self g tt = Except.error
              (modifyImg (modifyImg (remove_images self add_trim_predicate) j
                 resetRecord) j (setDims g),
               GError.unknownFormat g.format) := by
            simp [init_image, find_or_create_image, remove_images, hid,
              hscan', hfi]
          rw [he] at h
          simp only [Except.error.injEq, Prod.mk.injEq] at h
          obtain ⟨h1, h2⟩ := h
          subst h1
          subst h2
          refine ⟨rfl, rfl, Or.inl ⟨?_, rfl⟩⟩
          have hf := formAt_spec _ _ _ (formAt_modify _ _ j (setDims g)
            (formAt_modify _ _ j resetRecord (formAt_refl
              (remove_images self add_trim_predicate) j) rfl) rfl)
          exact hf.1
  | none =>
      cases hfi : format_info g with
      | some fi =>
          rw [init_image_fresh_eq self g tt fi hfc hfi] at h
          cases h
      | none =>
          have hnone' : (if g.id ≠ 0 then
              scanFind (fun img => img.client_id == g.id)
                (List.filter (fun img => !add_trim_predicate img)
                  self.images)
            else none) = none := by
            simpa [remove_images] using hfc
          have he : init_image self g tt = Except.error
              ({ self with
                 images := List.filter (fun img => !add_trim_predicate img)
                     self.images ++
                   [setDims g (claimRecord self.internal_id_counter g.id {})],
                 internal_id_counter := self.internal_id_counter + 1 },
               GError.unknownFormat g.format) := by
            simp [init_image, find_or_create_image, remove_images, hnone',
              hfi, modifyImg, set_append_last, getD_append_last]
          rw [he] at h
          simp only [Except.error.injEq, Prod.mk.injEq] at h
          obtain ⟨h1, h2⟩ := h
          subst h1
          subst h2
          refine ⟨rfl, rfl, Or.inr ⟨?_, rfl, ?_⟩⟩
          · show (List.filter (fun img => !add_trim_predicate img)
                self.images ++
              [setDims g (claimRecord self.internal_id_counter g.id
                {})]).map identKey = _
            rw [List.map_append]
            rfl
          · by_cases hid : g.id = 0
            · exact Or.inl hid
            · refine Or.inr fun img hm => ?_
              rw [if_pos hid] at hfc
              have := (scanFind_eq_none_iff _ _).mp hfc img hm
              simpa using this

theorem init_image_ok_shape (self : GraphicsManager) (g : GraphicsCommand)
    (tt : Nat) (st1 : GraphicsManager) (idx : Nat)
    (h : init_image self g tt = Except.ok (st1, idx)) :
    idx < st1.images.length ∧
    ((keysOf st1 = keysOf (remove_images self add_trim_predicate) ∧
      st1.internal_id_counter = self.internal_id_counter) ∨
     (keysOf st1 = keysOf (remove_images self add_trim_predicate) ++
        [(self.internal_id_counter, g.id, 0)] ∧
      st1.internal_id_counter = self.internal_id_counter + 1 ∧
      (g.id = 0 ∨ ∀ img ∈ (remove_images self add_trim_predicate).images,
        img.client_id ≠ g.id))) ∧
    (st1.loading_image = self.loading_image ∨
      st1.loading_image ∈ idsOf st1) := by
  cases hfc : (if g.id ≠ 0 then
      scanFind (fun img => img.client_id == g.id)
        ((remove_images self add_trim_predicate).images)
    else none) with
  | some j =>
      have hid : g.id ≠ 0 := by
        by_contra hz
        rw [if_neg (fun hne => hne hz)] at hfc
        cases hfc
      have hscan : scanFind (fun img => img.client_id == g.id)
          ((remove_images self add_trim_predicate).images) = some j := by
        rwa [if_pos hid] at hfc
      have hb : j < (self.images.filter
          fun i => !add_trim_predicate i).length :=
        (scanFind_some _ _ _ {} (by simpa [remove_images] using hscan)).1
      cases hfi : format_info g with
      | none =>
          have hscan' : scanFind (fun img => img.client_id == g.id)
              (List.filter (fun img => !add_trim_predicate img)
                self.images) = some j := by
            simpa [remove_images] using hscan
          have he : init_image self g tt = Except.error
              (modifyImg (modifyImg (remove_images self add_trim_predicate) j
                 resetRecord) j (setDims g),
               GError.unknownFormat g.format) := by
            simp [init_image, find_or_create_image, remove_images, hid,
              hscan', hfi]
          rw [he] at h
          cases h
      | some fi =>
          rw [init_image_existing_eq self g tt j fi hid hscan hfi] at h
          simp only [Except.ok.injEq, Prod.mk.injEq] at h
          obtain ⟨h1, h2⟩ := h
          subst h2
          subst h1
          refine ⟨by simpa using hb, Or.inl ⟨?_, rfl⟩, ?_⟩
          · exact map_set_ident _ _ _ identKey {} rfl
          · by_cases hifm : tt = 100 ∧ g.more
            · refine Or.inr ?_
              show (if tt = 100 ∧ g.more then _ else _) ∈ _
              rw [if_pos hifm]
              have hmm : List.map Image.internal_id
                  ((List.filter (fun i => !add_trim_predicate i)
                    self.images).set j
                    (resetImg ((List.filter (fun i => !add_trim_predicate i)
                      self.images).getD j {}) g tt fi)) =
                  List.map Image.internal_id
                    (List.filter (fun i => !add_trim_predicate i)
                      self.images) :=
                map_set_ident _ _ _ Image.internal_id {} rfl
              show ((List.filter (fun i => !add_trim_predicate i)
                  self.images).getD j {}).internal_id ∈
                List.map Image.internal_id
                  ((List.filter (fun i => !add_trim_predicate i)
                    self.images).set j
                    (resetImg ((List.filter
                      (fun i => !add_trim_predicate i)
                      self.images).getD j {}) g tt fi))
              rw [hmm]
              exact List.mem_map_of_mem _ (getD_mem _ _ _ hb)
            · refine Or.inl ?_
              show (if tt = 100 ∧ g.more then _ else _) = _
              rw [if_neg hifm]
  | none =>
      cases hfi : format_info g with
      | none =>
          have hnone' : (if g.id ≠ 0 then
              scanFind (fun img => img.client_id == g.id)
                (List.filter (fun img => !add_trim_predicate img)
                  self.images)
            else none) = none := by
            simpa [remove_images] using hfc
          have he : init_image self g tt = Except.error
              ({ self with
                 images := List.filter (fun img => !add_trim_predicate img)
                     self.images ++
                   [setDims g (claimRecord self.internal_id_counter g.id {})],
                 internal_id_counter := self.internal_id_counter + 1 },
               GError.unknownFormat g.format) := by
            simp [init_image, find_or_create_image, remove_images, hnone',
              hfi, modifyImg, set_append_last, getD_append_last]
          rw [he] at h
          cases h
      | some fi =>
          rw [init_image_fresh_eq self g tt fi hfc hfi] at h
          simp only [Except.ok.injEq, Prod.mk.injEq] at h
          obtain ⟨h1, h2⟩ := h
          subst h2
          subst h1
          refine ⟨by simp, Or.inr ⟨?_, rfl, ?_⟩, ?_⟩
          · show ((self.images.filter fun i => !add_trim_predicate i) ++
              [freshRec g tt self.internal_id_counter fi]).map identKey = _
            rw [List.map_append]
            rfl
          · by_cases hid : g.id = 0
            · exact Or.inl hid
            · refine Or.inr fun img hm => ?_
              rw [if_pos hid] at hfc
              have := (scanFind_eq_none_iff _ _).mp hfc img hm
              simpa using this
          · by_cases hifm : tt = 100 ∧ g.more
            · refine Or.inr ?_
              show (if tt = 100 ∧ g.more then _ else _) ∈ _
              rw [if_pos hifm]
              show self.internal_id_counter ∈
                ((self.images.filter fun i => !add_trim_predicate i) ++
                  [freshRec g tt self.internal_id_counter fi]).map
                  Image.internal_id
              rw [List.map_append]
              exact List.mem_append_right _ (by simp [freshRec])
            · refine Or.inl ?_
              show (if tt = 100 ∧ g.more then _ else _) = _
              rw [if_neg hifm]

theorem resolve_loading_cases (self : GraphicsManager) :
    (resolve_loading self = Except.error
        ({ self with loading_image := 0 }, GError.nonexistentImage) ∧
      img_by_internal_id self self.loading_image = none) ∨
    (∃ idx, resolve_loading self = Except.ok (self, idx) ∧
      idx < self.images.length ∧
      (imgAt self idx).internal_id = self.loading_image) := by
  cases hr : img_by_internal_id self self.loading_image with
  | none => exact Or.inl ⟨by simp [resolve_loading, hr], rfl⟩
  | some idx =>
      refine Or.inr ⟨idx, by simp [resolve_loading, hr], ?_, ?_⟩
      · exact (scanFind_some _ _ _ {} hr).1
      · have := (scanFind_some _ _ _ ({} : Image) hr).2
        simpa [imgAt] using this

theorem grman_step_shape (env : Env) (self : GraphicsManager)
    (g : GraphicsCommand) (payload : List Nat) :
    StepShape self g (grman_handle_command env self g payload).1 := by
  by_cases hact : g.action = 0 ∨ g.action = 116
  · have hg : grman_handle_command env self g payload =
        handle_add_command env self g payload := by
      simp [grman_handle_command, hact]
    rw [hg]
    by_cases hcont : (if g.transmission_type = 0 then 100
        else g.transmission_type) = 100 ∧ g.more = true ∧
        self.loading_image ≠ 0
    · rcases resolve_loading_cases self with ⟨hre, -⟩ | ⟨idx, hre, hlt, hiid⟩
      · have he : handle_add_command env self g payload =
            ({ self with loading_image := 0 },
             some GError.nonexistentImage) := by
          simp [handle_add_command, hcont, hre]
        rw [he]
        exact ⟨Or.inl ⟨rfl, rfl⟩, Or.inl rfl⟩
      · have he : handle_add_command env self g payload =
            (match media_phase env self idx g payload
                (if g.transmission_type = 0 then 100
                 else g.transmission_type) with
             | (st2, some e) => (st2, some e)
             | (st2, none) => process_phase env st2 idx g
                 (if g.transmission_type = 0 then 100
                  else g.transmission_type)) := by
          simp [handle_add_command, hcont, hre]
        rw [he]
        obtain ⟨hkm, hcm, hlm⟩ := media_phase_spec env self idx g payload
          (if g.transmission_type = 0 then 100 else g.transmission_type)
        cases hmp : media_phase env self idx g payload
            (if g.transmission_type = 0 then 100
             else g.transmission_type) with
        | mk st2 oe =>
            rw [hmp] at hkm hcm hlm
            cases oe with
            | some e => exact ⟨Or.inl ⟨hkm, hcm⟩, by
                rcases hlm with h | h
                · exact Or.inl h
                · exact Or.inr (Or.inl h)⟩
            | none =>
                obtain ⟨hkp, hcp, hlp, -⟩ := formAt_spec _ _ _
                  (process_phase_form env st2 idx g
                    (if g.transmission_type = 0 then 100
                     else g.transmission_type))
                refine ⟨Or.inl ⟨hkp.trans hkm, hcp.trans hcm⟩, ?_⟩
                rw [hlp]
                rcases hlm with h | h
                · exact Or.inl h
                · exact Or.inr (Or.inl h)
    · cases hinit : init_image self g
          (if g.transmission_type = 0 then 100
           else g.transmission_type) with
      | error p =>
          obtain ⟨st4, e⟩ := p
          have he : handle_add_command env self g payload =
              (st4, some e) := by
            simp only [handle_add_command]
            rw [if_neg hcont, hinit]
          rw [he]
          obtain ⟨-, hld, hsh⟩ := init_image_error_shape self g _ st4 e hinit
          refine ⟨?_, Or.inr (Or.inl hld)⟩
          rcases hsh with ⟨h1, h2⟩ | ⟨h1, h2, h3⟩
          · exact Or.inr (Or.inl ⟨h1, h2⟩)
          · exact Or.inr (Or.inr ⟨h1, h2, h3⟩)
      | ok p =>
          obtain ⟨st1, idx⟩ := p
          have he : handle_add_command env self g payload =
              (match media_phase env st1 idx g payload
                  (if g.transmission_type = 0 then 100
                   else g.transmission_type) with
               | (st2, some e) => (st2, some e)
               | (st2, none) => process_phase env st2 idx g
                   (if g.transmission_type = 0 then 100
                    else g.transmission_type)) := by
            simp only [handle_add_command]
            rw [if_neg hcont, hinit]
          rw [he]
          obtain ⟨-, hsh, hload⟩ := init_image_ok_shape self g _ st1 idx hinit
          obtain ⟨hkm, hcm, hlm⟩ := media_phase_spec env st1 idx g payload
            (if g.transmission_type = 0 then 100 else g.transmission_type)
          cases hmp : media_phase env st1 idx g payload
              (if g.transmission_type = 0 then 100
               else g.transmission_type) with
          | mk st2 oe =>
              rw [hmp] at hkm hcm hlm
              have hfin : ∀ (stf : GraphicsManager),
                  keysOf stf = keysOf st2 →
                  stf.internal_id_counter = st2.internal_id_counter →
                  stf.loading_image = st2.loading_image →
                  StepShape self g stf := by
                intro stf hk hc hl
                constructor
                · rcases hsh with ⟨h1, h2⟩ | ⟨h1, h2, h3⟩
                  · exact Or.inr (Or.inl ⟨(hk.trans hkm).trans h1,
                      (hc.trans hcm).trans h2⟩)
                  · exact Or.inr (Or.inr ⟨(hk.trans hkm).trans h1,
                      (hc.trans hcm).trans h2, h3⟩)
                · rw [hl]
                  rcases hlm with h | h
                  · exact Or.inl h
                  · rw [h]
                    rcases hload with h' | h'
                    · exact Or.inr (Or.inl h')
                    · refine Or.inr (Or.inr ?_)
                      rw [idsOf_eq_keysOf_map, hk.trans hkm,
                        ← idsOf_eq_keysOf_map]
                      exact h'
              cases oe with
              | some e => exact hfin st2 rfl rfl rfl
              | none =>
                  obtain ⟨hkp, hcp, hlp, -⟩ := formAt_spec _ _ _
                    (process_phase_form env st2 idx g
                      (if g.transmission_type = 0 then 100
                       else g.transmission_type))
                  exact hfin _ hkp hcp hlp
  · have hg : grman_handle_command env self g payload =
        (self, some (GError.unknownAction g.action)) := by
      simp [grman_handle_command, hact]
    rw [hg]
    exact ⟨Or.inl ⟨rfl, rfl⟩, Or.inr (Or.inl rfl)⟩

theorem mem_idsOf_bound (self : GraphicsManager)
    (h : ∀ img ∈ self.images, 0 < img.internal_id ∧
      img.internal_id < self.internal_id_counter) :
    ∀ v ∈ idsOf self, 0 < v ∧ v < self.internal_id_counter := by
  intro v hv
  obtain ⟨img, hm, rfl⟩ := List.mem_map.mp hv
  exact h img hm

theorem keysOf_swept_mem (self : GraphicsManager)
    (k : Nat × Nat × Nat)
    (hk : k ∈ keysOf (remove_images self add_trim_predicate)) :
    k ∈ keysOf self := by
  obtain ⟨img, hm, rfl⟩ := List.mem_map.mp hk
  exact List.mem_map_of_mem _ (List.mem_of_mem_filter hm)

theorem idsOf_swept_sublist (self : GraphicsManager) :
    List.Sublist (idsOf (remove_images self add_trim_predicate))
      (idsOf self) :=
  (List.filter_sublist _).map _

/-- C3 (amended): the identifier bookkeeping invariant IdWF (counter at
least 1, loading_image strictly below the counter, every record with a
nonzero internal id strictly below the counter, ids pairwise distinct) is
preserved by every command, so a dangling loading_image left behind by a
protocol error is always strictly below the counter and, since fresh ids
equal the counter at creation time, can never coincide with any record
created later; and a direct continuation command that arrives while
loading_image dangles (no record carries that internal id) reports the
nonexistent-image error and resets loading_image to 0, returning the
machine to Idle. -/
theorem loading_image_dangling_amended :
    (∀ (env : Env) (self : GraphicsManager) (g : GraphicsCommand)
       (payload : List Nat), IdWF self →
       IdWF (grman_handle_command env self g payload).1) ∧
    (∀ (env : Env) (self : GraphicsManager) (g : GraphicsCommand)
       (payload : List Nat),
       (if g.transmission_type = 0 then 100 else g.transmission_type) =
         100 →
       g.more = true → self.loading_image ≠ 0 →
       img_by_internal_id self self.loading_image = none →
       (g.action = 0 ∨ g.action = 116) →
       grman_handle_command env self g payload =
         ({ self with loading_image := 0 },
          some GError.nonexistentImage)) := by
  constructor
  · intro env self g payload hwf
    obtain ⟨hwf1, hwf2, hwf3, hwf4⟩ := hwf
    obtain ⟨hsh, hload⟩ := grman_step_shape env self g payload
    have hswb : ∀ v ∈ idsOf (remove_images self add_trim_predicate),
        0 < v ∧ v < self.internal_id_counter := by
      intro v hv
      obtain ⟨img, hm, rfl⟩ := List.mem_map.mp hv
      exact hwf3 img (List.mem_of_mem_filter hm)
    have hndsw : (idsOf (remove_images self add_trim_predicate)).Nodup :=
      (idsOf_swept_sublist self).nodup hwf4
    rcases hsh with ⟨hk, hc⟩ | ⟨hk, hc⟩ | ⟨hk, hc, -⟩
    · have hids : idsOf (grman_handle_command env self g payload).1 =
          idsOf self := by
        rw [idsOf_eq_keysOf_map, hk, ← idsOf_eq_keysOf_map]
      have hmem : ∀ img' ∈ (grman_handle_command env self g payload).1.images,
          0 < img'.internal_id ∧ img'.internal_id <
            (grman_handle_command env self g payload).1.internal_id_counter := by
        intro img' hm
        rw [hc]
        refine mem_idsOf_bound self hwf3 _ ?_
        rw [← hids]
        exact List.mem_map_of_mem _ hm
      refine ⟨by omega, ?_, hmem, by show (idsOf _).Nodup; rw [hids]; exact hwf4⟩
      rcases hload with h | h | h
      · omega
      · rw [h, hc]; exact hwf2
      · have := mem_idsOf_bound self hwf3 _ (hids ▸ h)
        omega
    · have hids : idsOf (grman_handle_command env self g payload).1 =
          idsOf (remove_images self add_trim_predicate) := by
        rw [idsOf_eq_keysOf_map, hk, ← idsOf_eq_keysOf_map]
      have hmem : ∀ img' ∈ (grman_handle_command env self g payload).1.images,
          0 < img'.internal_id ∧ img'.internal_id <
            (grman_handle_command env self g payload).1.internal_id_counter := by
        intro img' hm
        rw [hc]
        refine hswb _ ?_
        rw [← hids]
        exact List.mem_map_of_mem _ hm
      refine ⟨by omega, ?_, hmem, by show (idsOf _).Nodup; rw [hids]; exact hndsw⟩
      rcases hload with h | h | h
      · omega
      · rw [h, hc]; exact hwf2
      · have := hswb _ (hids ▸ h)
        omega
    · have hids : idsOf (grman_handle_command env self g payload).1 =
          idsOf (remove_images self add_trim_predicate) ++
            [self.internal_id_counter] := by
        rw [idsOf_eq_keysOf_map, hk, List.map_append,
          ← idsOf_eq_keysOf_map]
        rfl
      have hvb : ∀ v ∈ idsOf (grman_handle_command env self g payload).1,
          0 < v ∧ v < (grman_handle_command env self g payload).1.internal_id_counter := by
        intro v hv
        rw [hids] at hv
        rw [hc]
        rcases List.mem_append.mp hv with h | h
        · have := hswb _ h
          omega
        · have : v = self.internal_id_counter := by simpa using h
          omega
      have hmem : ∀ img' ∈ (grman_handle_command env self g payload).1.images,
          0 < img'.internal_id ∧ img'.internal_id <
            (grman_handle_command env self g payload).1.internal_id_counter := by
        intro img' hm
        exact hvb _ (List.mem_map_of_mem _ hm)
      refine ⟨by omega, ?_, hmem, ?_⟩
      · rcases hload with h | h | h
        · omega
        · rw [h, hc]; omega
        · have := hvb _ h
          omega
      · show (idsOf _).Nodup
        rw [hids]
        rw [List.nodup_append]
        refine ⟨hndsw, List.nodup_singleton _, ?_⟩
        intro v hv hv1
        have hb := hswb v hv
        have : v = self.internal_id_counter := by simpa using hv1
        omega
  · intro env self g payload htt hmore hl hnone hact
    have hcont : (if g.transmission_type = 0 then 100
        else g.transmission_type) = 100 ∧ g.more = true ∧
        self.loading_image ≠ 0 := ⟨htt, hmore, hl⟩
    have hres : resolve_loading self = Except.error
        ({ self with loading_image := 0 }, GError.nonexistentImage) := by
      simp [resolve_loading, hnone]
    have hg : grman_handle_command env self g payload =
        handle_add_command env self g payload := by
      simp [grman_handle_command, hact]
    rw [hg]
    simp only [handle_add_command]
    rw [if_pos hcont, hres]

/-- Witness for the C3 theorem: the invariant holds after running a concrete
command from a fresh manager, and is established at the fresh manager. -/
theorem loading_image_dangling_amended_witness :
    IdWF (grman_handle_command env0 (grman_realloc 24 80) cmdRGBA8
      bytes8).1 :=
  loading_image_dangling_amended.1 env0 (grman_realloc 24 80) cmdRGBA8
    bytes8 (by refine ⟨?_, ?_, ?_, ?_⟩ <;> simp [IdWF, grman_realloc])

theorem no_client_collision_step (env : Env) (self : GraphicsManager)
    (g : GraphicsCommand) (payload : List Nat)
    (h : NoClientCollision self) :
    NoClientCollision (grman_handle_command env self g payload).1 := by
  obtain ⟨hsh, -⟩ := grman_step_shape env self g payload
  have hcs : List.Sublist
      (clientsOf (remove_images self add_trim_predicate))
      (clientsOf self) := (List.filter_sublist _).map _
  have hsw : List.Pairwise (fun a b => a = 0 ∨ a ≠ b)
      (clientsOf (remove_images self add_trim_predicate)) :=
    (h : List.Pairwise _ _).sublist hcs
  rcases hsh with ⟨hk, -⟩ | ⟨hk, -⟩ | ⟨hk, -, hside⟩
  · show List.Pairwise _ _
    have : clientsOf (grman_handle_command env self g payload).1 =
        clientsOf self := by
      rw [clientsOf_eq_keysOf_map, hk, ← clientsOf_eq_keysOf_map]
    rw [show List.map Image.client_id
        (grman_handle_command env self g payload).1.images =
      clientsOf (grman_handle_command env self g payload).1 from rfl, this]
    exact h
  · show List.Pairwise _ _
    have : clientsOf (grman_handle_command env self g payload).1 =
        clientsOf (remove_images self add_trim_predicate) := by
      rw [clientsOf_eq_keysOf_map, hk, ← clientsOf_eq_keysOf_map]
    rw [show List.map Image.client_id
        (grman_handle_command env self g payload).1.images =
      clientsOf (grman_handle_command env self g payload).1 from rfl, this]
    exact hsw
  · show List.Pairwise _ _
    have hcl : clientsOf (grman_handle_command env self g payload).1 =
        clientsOf (remove_images self add_trim_predicate) ++ [g.id] := by
      rw [clientsOf_eq_keysOf_map, hk, List.map_append,
        ← clientsOf_eq_keysOf_map]
      rfl
    rw [show List.map Image.client_id
        (grman_handle_command env self g payload).1.images =
      clientsOf (grman_handle_command env self g payload).1 from rfl, hcl]
    rw [List.pairwise_append]
    refine ⟨hsw, List.pairwise_singleton _ _, ?_⟩
    intro a ha b hb
    have hb' : b = g.id := by simpa using hb
    subst hb'
    rcases hside with hz | hne
    · by_cases haz : a = 0
      · exact Or.inl haz
      · exact Or.inr (by omega)
    · obtain ⟨img, hm, rfl⟩ := List.mem_map.mp ha
      exact Or.inr (hne img hm)

/-- C4: starting from a fresh manager, for every sequence of commands whose
nonzero client ids are pairwise distinct, after every prefix of the sequence
the store contains no two records sharing a nonzero client id.  (The
find-or-create scan reuses the record of a seen nonzero id and appends a
fresh record otherwise, so duplicates are never created.) -/
theorem distinct_client_ids_no_collision
    (cmds : List (Env × GraphicsCommand × List Nat)) (lines columns : Nat)
    (hdist : List.Pairwise (fun a b => a = 0 ∨ a ≠ b)
      (cmds.map fun c => c.2.1.id)) :
    ∀ n, NoClientCollision
      (runCmds (cmds.take n) (grman_realloc lines columns)) := by
  have hrun : ∀ (cs : List (Env × GraphicsCommand × List Nat))
      (st : GraphicsManager), NoClientCollision st →
      NoClientCollision (runCmds cs st) := by
    intro cs
    induction cs with
    | nil => intro st h; exact h
    | cons c rest ih =>
        intro st h
        have : runCmds (c :: rest) st =
            runCmds rest (grman_handle_command c.1 st c.2.1 c.2.2).1 := rfl
        rw [this]
        exact ih _ (no_client_collision_step c.1 st c.2.1 c.2.2 h)
  intro n
  refine hrun _ _ ?_
  show List.Pairwise _ _
  simp [grman_realloc]

/-- Witness for the C4 theorem: two commands with distinct nonzero client
ids 1 and 2 leave a store with no client-id collision after each prefix. -/
theorem distinct_client_ids_no_collision_witness :
    NoClientCollision (runCmds
      ([(env0, { cmdRGBA8 with id := 1 }, bytes8),
        (env0, { cmdRGBA8 with id := 2 }, bytes8)].take 2)
      (grman_realloc 24 80)) :=
  distinct_client_ids_no_collision
    [(env0, { cmdRGBA8 with id := 1 }, bytes8),
     (env0, { cmdRGBA8 with id := 2 }, bytes8)] 24 80 (by decide) 2

/-- C2 (amended): unknown action codes are reported and leave the entire
state exactly unchanged.  Unknown transmission-medium codes and unknown
format codes are reported and the payload-transfer and decode phases never
run, but only after the new-transmission initialisation has executed, so the
state is the initialisation's output (stale records swept, the target record
created or reset with dimensions assigned), not the pre-command state.  An
unknown format always errors out of initialisation with the unknown-format
report. -/
theorem unknown_codes_amended :
    (∀ (env : Env) (self : GraphicsManager) (g : GraphicsCommand)
       (payload : List Nat), ¬(g.action = 0 ∨ g.action = 116) →
       grman_handle_command env self g payload =
         (self, some (GError.unknownAction g.action))) ∧
    (∀ (env : Env) (self : GraphicsManager) (g : GraphicsCommand)
       (payload : List Nat) (st1 : GraphicsManager) (idx : Nat),
       (g.action = 0 ∨ g.action = 116) →
       (if g.transmission_type = 0 then 100 else g.transmission_type) ≠
         100 →
       (if g.transmission_type = 0 then 100 else g.transmission_type) ≠
         102 →
       (if g.transmission_type = 0 then 100 else g.transmission_type) ≠
         116 →
       (if g.transmission_type = 0 then 100 else g.transmission_type) ≠
         115 →
       init_image self g (if g.transmission_type = 0 then 100
         else g.transmission_type) = Except.ok (st1, idx) →
       grman_handle_command env self g payload =
         (st1, some (GError.unknownTransmission g.transmission_type))) ∧
    (∀ (env : Env) (self : GraphicsManager) (g : GraphicsCommand)
       (payload : List Nat) (st4 : GraphicsManager),
       (g.action = 0 ∨ g.action = 116) →
       ¬((if g.transmission_type = 0 then 100 else g.transmission_type) =
           100 ∧ g.more = true ∧ self.loading_image ≠ 0) →
       init_image self g (if g.transmission_type = 0 then 100
         else g.transmission_type) =
         Except.error (st4, GError.unknownFormat g.format) →
       grman_handle_command env self g payload =
         (st4, some (GError.unknownFormat g.format))) ∧
    (∀ (self : GraphicsManager) (g : GraphicsCommand) (tt : Nat),
       format_info g = none →
       ∃ st4, init_image self g tt =
         Except.error (st4, GError.unknownFormat g.format)) := by
  refine ⟨?_, ?_, ?_, ?_⟩
  · intro env self g payload h
    simp [grman_handle_command, h]
  · intro env self g payload st1 idx hact h100 h102 h116 h115 hinit
    have hg : grman_handle_command env self g payload =
        handle_add_command env self g payload := by
      simp [grman_handle_command, hact]
    have hcont : ¬((if g.transmission_type = 0 then 100
        else g.transmission_type) = 100 ∧ g.more = true ∧
        self.loading_image ≠ 0) := fun hc => h100 hc.1
    have hm : media_phase env st1 idx g payload
        (if g.transmission_type = 0 then 100 else g.transmission_type) =
        (st1, some (GError.unknownTransmission g.transmission_type)) := by
      simp [media_phase, h100, h102, h116, h115]
    rw [hg]
    simp only [handle_add_command]
    rw [if_neg hcont, hinit]
    show (match media_phase env st1 idx g payload
        (if g.transmission_type = 0 then 100 else g.transmission_type) with
      | (st2, some e) => (st2, some e)
      | (st2, none) => process_phase env st2 idx g
          (if g.transmission_type = 0 then 100
           else g.transmission_type)) = _
    rw [hm]
  · intro env self g payload st4 hact hcont hinit
    have hg : grman_handle_command env self g payload =
        handle_add_command env self g payload := by
      simp [grman_handle_command, hact]
    rw [hg]
    simp only [handle_add_command]
    rw [if_neg hcont, hinit]
  · intro self g tt hfi
    cases hfc : (if g.id ≠ 0 then
        scanFind (fun img => img.client_id == g.id)
          ((remove_images self add_trim_predicate).images)
      else none) with
    | some j =>
        have hid : g.id ≠ 0 := by
          by_contra hz
          rw [if_neg (fun hne => hne hz)] at hfc
          cases hfc
        have hscan' : scanFind (fun img => img.client_id == g.id)
            (List.filter (fun img => !add_trim_predicate img)
              self.images) = some j := by
          have := hfc
          rw [if_pos hid] at this
          simpa [remove_images] using this
        refine ⟨modifyImg (modifyImg (remove_images self
            add_trim_predicate) j resetRecord) j (setDims g), ?_⟩
        simp [init_image, find_or_create_image, remove_images, hid,
          hscan', hfi]
    | none =>
        have hnone' : (if g.id ≠ 0 then
            scanFind (fun img => img.client_id == g.id)
              (List.filter (fun img => !add_trim_predicate img)
                self.images)
          else none) = none := by
          simpa [remove_images] using hfc
        refine ⟨{ self with
            images := List.filter (fun img => !add_trim_predicate img)
                self.images ++
              [setDims g (claimRecord self.internal_id_counter g.id {})],
            internal_id_counter := self.internal_id_counter + 1 }, ?_⟩
        simp [init_image, find_or_create_image, remove_images, hnone',
          hfi, modifyImg, set_append_last, getD_append_last]

/-- Witness for the C2 theorem: a command with the unrecognised action code
113 (letter q) leaves a concrete one-record store untouched and reports the
unknown action. -/
theorem unknown_codes_amended_witness :
    grman_handle_command env0 capSelf { cmdRGBA8 with action := 113 } [] =
      (capSelf, some (GError.unknownAction 113)) :=
  unknown_codes_amended.1 env0 capSelf { cmdRGBA8 with action := 113 } []
    (by decide)

theorem imgAt_modifyImg_out (s : GraphicsManager) (idx : Nat)
    (f : Image → Image) (h : ¬ idx < s.images.length) :
    imgAt (modifyImg s idx f) idx = imgAt s idx := by
  simp [imgAt, modifyImg,
    List.set_eq_of_length_le (Nat.le_of_not_lt h)]

theorem process_phase_raw_buf (env : Env) (s : GraphicsManager) (idx : Nat)
    (g : GraphicsCommand) (tt : Nat)
    (hNP : ¬(g.compressed ≠ 0 ∨ g.format = 100)) (htt : tt = 100) :
    (imgAt (process_phase env s idx g tt).1 idx).load_data.buf =
      (imgAt s idx).load_data.buf := by
  have hbufmod : ∀ (f : Image → Image),
      (∀ img, (f img).load_data.buf = img.load_data.buf) →
      (imgAt (modifyImg s idx f) idx).load_data.buf =
        (imgAt s idx).load_data.buf := by
    intro f hf
    by_cases hin : idx < s.images.length
    · rw [imgAt_modifyImg_self _ _ _ hin]
      exact hf _
    · rw [imgAt_modifyImg_out _ _ _ hin]
  cases hL : (imgAt s idx).data_loaded with
  | false =>
      have he : (process_phase env s idx g tt).1 = s := by
        simp [process_phase, hL]
      rw [he]
  | true =>
      by_cases hc : (imgAt s idx).load_data.buf_used <
          (imgAt s idx).load_data.data_sz
      · have he : (process_phase env s idx g tt).1 =
            modifyImg s idx markNotLoaded := by
          simp [process_phase, hL, hNP, htt, hc]
        rw [he]
        exact hbufmod _ (fun img => rfl)
      · have he : (process_phase env s idx g tt).1 =
            modifyImg s idx (setDataPtr DataPtr.bufPtr) := by
          simp [process_phase, hL, hNP, htt, hc]
        rw [he]
        exact hbufmod _ (fun img => rfl)

theorem direct_raw_single_buf (env : Env) (S : GraphicsManager) (j : Nat)
    (g : GraphicsCommand) (payload : List Nat)
    (hNP : ¬(g.compressed ≠ 0 ∨ g.format = 100)) (hmore : g.more = false)
    (hjS : j < S.images.length)
    (hbufS : (imgAt S j).load_data.buf = some []) :
    ((imgAt (match media_phase env S j g payload 100 with
        | (st2, some e) => (st2, some e)
        | (st2, none) => process_phase env st2 j g 100).1 j).load_data.buf =
       some [] ∨
     (imgAt (match media_phase env S j g payload 100 with
        | (st2, some e) => (st2, some e)
        | (st2, none) => process_phase env st2 j g 100).1 j).load_data.buf =
       some (payload.take g.payload_sz)) := by
  by_cases hgd : (imgAt S j).load_data.buf_capacity -
      (imgAt S j).load_data.buf_used ≤ g.payload_sz
  · have hm : media_phase env S j g payload 100 =
        (S, some GError.tooMuchData) := by
      simp [media_phase, hgd]
    rw [hm]
    exact Or.inl hbufS
  · have hm : media_phase env S j g payload 100 =
        ({ modifyImg (modifyImg S j (writeChunk g payload)) j markLoaded
           with loading_image := 0 }, none) := by
      simp [media_phase, hgd, hmore]
    rw [hm]
    refine Or.inr ?_
    show (imgAt (process_phase env ({ modifyImg
        (modifyImg S j (writeChunk g payload)) j markLoaded with
        loading_image := 0 }) j g 100).1 j).load_data.buf =
      some (payload.take g.payload_sz)
    rw [process_phase_raw_buf env _ j g 100 hNP rfl]
    have h2 : imgAt ({ modifyImg (modifyImg S j (writeChunk g payload)) j
        markLoaded with loading_image := 0 }) j =
        markLoaded (writeChunk g payload (imgAt S j)) := by
      show imgAt (modifyImg (modifyImg S j (writeChunk g payload)) j
        markLoaded) j = _
      rw [imgAt_modifyImg_self _ _ _ (by
          rw [length_modifyImg]; exact hjS),
        imgAt_modifyImg_self _ _ _ hjS]
    rw [h2]
    show (writeChunk g payload (imgAt S j)).load_data.buf = _
    simp [writeChunk, hbufS]

/-- C9: when a new (non-continuation) transmission reuses a nonzero client
id that find-or-create resolves to an existing record, the initialisation
phase hands the media phase a record whose staging is fully released and
whose loaded flag is cleared: buf_used is 0, no file mapping remains, the
accumulation buffer is either freed (file media) or freshly allocated and
empty (direct medium), and data_loaded is false, all before any payload
byte is applied.  Consequently, for an uncompressed raw direct single-chunk
command the record's final buffer content is exactly the new chunk (or the
fresh empty buffer when the chunk was rejected as oversized): no byte of
the old transmission survives into the new pixel data. -/
theorem reuse_client_id_resets_staging (env : Env) (self : GraphicsManager)
    (g : GraphicsCommand) (payload : List Nat) (j : Nat) (fi : Nat × Bool)
    (hid : g.id ≠ 0)
    (hscan : scanFind (fun img => img.client_id == g.id)
      ((remove_images self add_trim_predicate).images) = some j)
    (hfi : format_info g = some fi) :
    (∀ tt st1 idx, init_image self g tt = Except.ok (st1, idx) →
      idx = j ∧ (imgAt st1 j).data_loaded = false ∧
      (imgAt st1 j).load_data.buf_used = 0 ∧
      (imgAt st1 j).load_data.mapped_file = none ∧
      ((imgAt st1 j).load_data.buf = none ∨
       (imgAt st1 j).load_data.buf = some [])) ∧
    ((g.transmission_type = 0 ∨ g.transmission_type = 100) →
     g.more = false → g.compressed = 0 → g.format ≠ 100 →
     ((imgAt (handle_add_command env self g payload).1 j).load_data.buf =
        some [] ∨
      (imgAt (handle_add_command env self g payload).1 j).load_data.buf =
        some (payload.take g.payload_sz))) := by
  have hb : j < (self.images.filter fun i => !add_trim_predicate i).length :=
    (scanFind_some _ _ _ {} (by simpa [remove_images] using hscan)).1
  have hinit : ∀ tt, init_image self g tt = Except.ok
      ({ self with
         images := (self.images.filter fun i => !add_trim_predicate i).set j
           (resetImg ((self.images.filter fun i => !add_trim_predicate
              i).getD j {}) g tt fi),
         loading_image := if tt = 100 ∧ g.more then
           ((self.images.filter fun i => !add_trim_predicate i).getD j
             {}).internal_id else self.loading_image }, j) :=
    fun tt => init_image_existing_eq self g tt j fi hid hscan hfi
  have himgAt : ∀ tt, imgAt
      ({ self with
         images := (self.images.filter fun i => !add_trim_predicate i).set j
           (resetImg ((self.images.filter fun i => !add_trim_predicate
              i).getD j {}) g tt fi),
         loading_image := if tt = 100 ∧ g.more then
           ((self.images.filter fun i => !add_trim_predicate i).getD j
             {}).internal_id else self.loading_image }) j =
      resetImg ((self.images.filter fun i => !add_trim_predicate i).getD j
        {}) g tt fi := by
    intro tt
    show ((self.images.filter fun i => !add_trim_predicate i).set j
        _).getD j {} = _
    exact getD_set_self _ _ _ _ hb
  constructor
  · intro tt st1 idx h
    rw [hinit tt] at h
    simp only [Except.ok.injEq, Prod.mk.injEq] at h
    obtain ⟨h1, h2⟩ := h
    subst h2
    subst h1
    rw [himgAt tt]
    by_cases htt : tt = 100
    · subst htt
      exact ⟨rfl, rfl, by simp [resetImg, initLoadData], by
        simp [resetImg, initLoadData, free_load_data],
        Or.inr (by simp [resetImg, initLoadData])⟩
    · exact ⟨rfl, rfl, by simp [resetImg, initLoadData, free_load_data, htt],
        by simp [resetImg, initLoadData, free_load_data, htt],
        Or.inl (by simp [resetImg, initLoadData, free_load_data, htt])⟩
  · intro httm hmore hcz hfmt
    have htt : (if g.transmission_type = 0 then 100
        else g.transmission_type) = 100 := by
      rcases httm with h | h <;> simp [h]
    have hcont : ¬((if g.transmission_type = 0 then 100
        else g.transmission_type) = 100 ∧ g.more = true ∧
        self.loading_image ≠ 0) := by
      rintro ⟨-, hm, -⟩
      rw [hmore] at hm
      cases hm
    have hNP : ¬(g.compressed ≠ 0 ∨ g.format = 100) := by
      rintro (h | h)
      · exact h hcz
      · exact hfmt h
    have he : handle_add_command env self g payload =
        (match media_phase env
            ({ self with
               images := (self.images.filter
                 fun i => !add_trim_predicate i).set j
                 (resetImg ((self.images.filter
                    fun i => !add_trim_predicate i).getD j {}) g
                   (if g.transmission_type = 0 then 100
                    else g.transmission_type) fi),
               loading_image := if (if g.transmission_type = 0 then 100
                   else g.transmission_type) = 100 ∧ g.more then
                 ((self.images.filter fun i => !add_trim_predicate i).getD j
                   {}).internal_id else self.loading_image }) j g payload
            (if g.transmission_type = 0 then 100
             else g.transmission_type) with
         | (st2, some e) => (st2, some e)
         | (st2, none) => process_phase env st2 j g
             (if g.transmission_type = 0 then 100
              else g.transmission_type)) := by
      simp only [handle_add_command]
      rw [if_neg hcont, hinit _]
    rw [he, htt]
    refine direct_raw_single_buf env _ j g payload hNP hmore ?_ ?_
    · simpa using hb
    · rw [himgAt 100]
      simp [resetImg, initLoadData]

theorem anon_step (env : Env) (self : GraphicsManager)
    (g : GraphicsCommand) (payload : List Nat) (fi : Nat × Bool)
    (hact : g.action = 0 ∨ g.action = 116) (hid : g.id = 0)
    (hmore : g.more = false) (hfi : format_info g = some fi) :
    ∃ R, (grman_handle_command env self g payload).1.images =
        (self.images.filter fun i => !add_trim_predicate i) ++ [R] ∧
      identKey R = (self.internal_id_counter, 0, 0) ∧
      (grman_handle_command env self g payload).1.internal_id_counter =
        self.internal_id_counter + 1 := by
  have hg : grman_handle_command env self g payload =
      handle_add_command env self g payload := by
    simp [grman_handle_command, hact]
  have hcont : ¬((if g.transmission_type = 0 then 100
      else g.transmission_type) = 100 ∧ g.more = true ∧
      self.loading_image ≠ 0) := by
    rintro ⟨-, hm, -⟩
    rw [hmore] at hm
    cases hm
  have hnone : (if g.id ≠ 0 then
      scanFind (fun img => img.client_id == g.id)
        ((remove_images self add_trim_predicate).images)
    else none) = none := by
    simp [hid]
  have hinit := init_image_fresh_eq self g
    (if g.transmission_type = 0 then 100 else g.transmission_type) fi
    hnone hfi
  have he : handle_add_command env self g payload =
      (match media_phase env
          ({ self with
             images := (self.images.filter fun i => !add_trim_predicate i)
               ++ [freshRec g (if g.transmission_type = 0 then 100
                    else g.transmission_type) self.internal_id_counter fi],
             loading_image := if (if g.transmission_type = 0 then 100
                  else g.transmission_type) = 100 ∧ g.more then
                self.internal_id_counter else self.loading_image,
             internal_id_counter := self.internal_id_counter + 1 })
          ((self.images.filter fun i => !add_trim_predicate i).length) g
          payload
          (if g.transmission_type = 0 then 100
           else g.transmission_type) with
       | (st2, some e) => (st2, some e)
       | (st2, none) => process_phase env st2
           ((self.images.filter fun i => !add_trim_predicate i).length) g
           (if g.transmission_type = 0 then 100
            else g.transmission_type)) := by
    simp only [handle_add_command]
    rw [if_neg hcont, hinit]
  rw [hg, he]
  obtain ⟨Rm, L, hem, hkm, -⟩ := media_phase_form env
    ({ self with
       images := (self.images.filter fun i => !add_trim_predicate i)
         ++ [freshRec g (if g.transmission_type = 0 then 100
              else g.transmission_type) self.internal_id_counter fi],
       loading_image := if (if g.transmission_type = 0 then 100
            else g.transmission_type) = 100 ∧ g.more then
          self.internal_id_counter else self.loading_image,
       internal_id_counter := self.internal_id_counter + 1 })
    ((self.images.filter fun i => !add_trim_predicate i).length) g payload
    (if g.transmission_type = 0 then 100 else g.transmission_type)
  have hAt : imgAt ({ self with
      images := (self.images.filter fun i => !add_trim_predicate i)
        ++ [freshRec g (if g.transmission_type = 0 then 100
             else g.transmission_type) self.internal_id_counter fi],
      loading_image := if (if g.transmission_type = 0 then 100
           else g.transmission_type) = 100 ∧ g.more then
         self.internal_id_counter else self.loading_image,
      internal_id_counter := self.internal_id_counter + 1 })
      ((self.images.filter fun i => !add_trim_predicate i).length) =
      freshRec g (if g.transmission_type = 0 then 100
        else g.transmission_type) self.internal_id_counter fi := by
    show ((self.images.filter fun i => !add_trim_predicate i) ++
      [freshRec g (if g.transmission_type = 0 then 100
        else g.transmission_type) self.internal_id_counter fi]).getD
      (self.images.filter fun i => !add_trim_predicate i).length {} = _
    exact getD_append_last _ _ _
  have hkey : identKey Rm = (self.internal_id_counter, 0, 0) := by
    rw [hkm, hAt]
    simp [identKey, freshRec, hid]
  have hmim : (media_phase env
      ({ self with
         images := (self.images.filter fun i => !add_trim_predicate i)
           ++ [freshRec g (if g.transmission_type = 0 then 100
                else g.transmission_type) self.internal_id_counter fi],
         loading_image := if (if g.transmission_type = 0 then 100
              else g.transmission_type) = 100 ∧ g.more then
            self.internal_id_counter else self.loading_image,
         internal_id_counter := self.internal_id_counter + 1 })
      ((self.images.filter fun i => !add_trim_predicate i).length) g
      payload
      (if g.transmission_type = 0 then 100
       else g.transmission_type)).1.images =
      (self.images.filter fun i => !add_trim_predicate i) ++ [Rm] := by
    rw [hem]
    show ((self.images.filter fun i => !add_trim_predicate i) ++
      [freshRec g (if g.transmission_type = 0 then 100
        else g.transmission_type) self.internal_id_counter fi]).set
      (self.images.filter fun i => !add_trim_predicate i).length Rm = _
    exact set_append_last _ _ _
  have hmc : (media_phase env
      ({ self with
         images := (self.images.filter fun i => !add_trim_predicate i)
           ++ [freshRec g (if g.transmission_type = 0 then 100
                else g.transmission_type) self.internal_id_counter fi],
         loading_image := if (if g.transmission_type = 0 then 100
              else g.transmission_type) = 100 ∧ g.more then
            self.internal_id_counter else self.loading_image,
         internal_id_counter := self.internal_id_counter + 1 })
      ((self.images.filter fun i => !add_trim_predicate i).length) g
      payload
      (if g.transmission_type = 0 then 100
       else g.transmission_type)).1.internal_id_counter =
      self.internal_id_counter + 1 := by
    rw [hem]
  cases hmp : media_phase env
      ({ self with
         images := (self.images.filter fun i => !add_trim_predicate i)
           ++ [freshRec g (if g.transmission_type = 0 then 100
                else g.transmission_type) self.internal_id_counter fi],
         loading_image := if (if g.transmission_type = 0 then 100
              else g.transmission_type) = 100 ∧ g.more then
            self.internal_id_counter else self.loading_image,
         internal_id_counter := self.internal_id_counter + 1 })
      ((self.images.filter fun i => !add_trim_predicate i).length) g
      payload
      (if g.transmission_type = 0 then 100
       else g.transmission_type) with
  | mk st2 oe =>
      rw [hmp] at hmim hmc
      cases oe with
      | some e => exact ⟨Rm, hmim, hkey, hmc⟩
      | none =>
          obtain ⟨Rp, hep, hkp⟩ := process_phase_form env st2
            ((self.images.filter fun i => !add_trim_predicate i).length) g
            (if g.transmission_type = 0 then 100 else g.transmission_type)
          refine ⟨Rp, ?_, ?_, ?_⟩
          · show (process_phase env st2
              ((self.images.filter fun i => !add_trim_predicate i).length)
              g (if g.transmission_type = 0 then 100
                 else g.transmission_type)).1.images = _
            rw [hep]
            show (st2.images.set
              (self.images.filter fun i => !add_trim_predicate i).length
              Rp) = _
            rw [hmim]
            exact set_append_last _ _ _
          · rw [hkp]
            have : imgAt st2
                ((self.images.filter fun i => !add_trim_predicate i).length)
                = Rm := by
              show st2.images.getD
                (self.images.filter fun i => !add_trim_predicate i).length
                {} = Rm
              rw [hmim]
              exact getD_append_last _ _ _
            rw [this]
            exact hkey
          · show (process_phase env st2
              ((self.images.filter fun i => !add_trim_predicate i).length)
              g (if g.transmission_type = 0 then 100
                 else g.transmission_type)).1.internal_id_counter = _
            rw [hep]
            exact hmc

/-- C1 (amended): two consecutive anonymous (client_id = 0) new direct
transmissions never collide: each appends a fresh record whose internal id
is the counter at its turn, so the ids are distinct; but the sweep that
precedes every new transmission removes anonymous unreferenced records, and
since this core never increments refcnt, the second command always removes
the first command's record, leaving only the second retrievable by internal
id.  A loaded anonymous record survives the sweep exactly when an outside
collaborator holds a reference (refcnt nonzero); such a record coexists
with the fresh record appended by an anonymous transmission, with distinct
internal ids. -/
theorem anon_transmissions_amended :
    (∀ (env1 env2 : Env) (self : GraphicsManager)
       (g1 g2 : GraphicsCommand) (p1 p2 : List Nat) (fi1 fi2 : Nat × Bool),
      IdWF self →
      (g1.action = 0 ∨ g1.action = 116) → g1.id = 0 → g1.more = false →
      format_info g1 = some fi1 →
      (g2.action = 0 ∨ g2.action = 116) → g2.id = 0 → g2.more = false →
      format_info g2 = some fi2 →
      (∃ img ∈ (grman_handle_command env1 self g1 p1).1.images,
        img.internal_id = self.internal_id_counter) ∧
      img_by_internal_id
        (grman_handle_command env2 (grman_handle_command env1 self g1 p1).1
          g2 p2).1 self.internal_id_counter = none ∧
      (∃ img ∈ (grman_handle_command env2
          (grman_handle_command env1 self g1 p1).1 g2 p2).1.images,
        img.internal_id = self.internal_id_counter + 1 ∧
        img.client_id = 0) ∧
      self.internal_id_counter ≠ self.internal_id_counter + 1) ∧
    (∀ (env : Env) (self : GraphicsManager) (g : GraphicsCommand)
       (payload : List Nat) (fi : Nat × Bool) (r : Image),
      IdWF self →
      (g.action = 0 ∨ g.action = 116) → g.id = 0 → g.more = false →
      format_info g = some fi →
      r ∈ self.images → r.client_id = 0 → r.refcnt ≠ 0 →
      r.data_loaded = true →
      r ∈ (grman_handle_command env self g payload).1.images ∧
      (∃ img ∈ (grman_handle_command env self g payload).1.images,
        img.internal_id = self.internal_id_counter ∧
        img.internal_id ≠ r.internal_id)) := by
  constructor
  · intro env1 env2 self g1 g2 p1 p2 fi1 fi2 hwf hact1 hid1 hmore1 hfi1
      hact2 hid2 hmore2 hfi2
    obtain ⟨R1, him1, hkey1, hcnt1⟩ :=
      anon_step env1 self g1 p1 fi1 hact1 hid1 hmore1 hfi1
    obtain ⟨R2, him2, hkey2, hcnt2⟩ :=
      anon_step env2 (grman_handle_command env1 self g1 p1).1 g2 p2 fi2
        hact2 hid2 hmore2 hfi2
    have hR1c : R1.client_id = 0 := by
      have := congrArg (fun k => k.2.1) hkey1
      simpa [identKey] using this
    have hR1r : R1.refcnt = 0 := by
      have := congrArg (fun k => k.2.2) hkey1
      simpa [identKey] using this
    have hR2i : R2.internal_id = self.internal_id_counter + 1 := by
      have := congrArg (fun k => k.1) hkey2
      rw [hcnt1] at this
      simpa [identKey] using this
    have hR2c : R2.client_id = 0 := by
      have := congrArg (fun k => k.2.1) hkey2
      simpa [identKey] using this
    have hR1i : R1.internal_id = self.internal_id_counter := by
      have := congrArg (fun k => k.1) hkey1
      simpa [identKey] using this
    have hfilter1 : (grman_handle_command env1 self g1
        p1).1.images.filter (fun i => !add_trim_predicate i) =
        (self.images.filter fun i => !add_trim_predicate i).filter
          (fun i => !add_trim_predicate i) := by
      rw [him1, List.filter_append]
      have : List.filter (fun i => !add_trim_predicate i) [R1] = [] := by
        simp [add_trim_predicate, hR1c, hR1r]
      rw [this, List.append_nil]
    have him2' : (grman_handle_command env2
        (grman_handle_command env1 self g1 p1).1 g2 p2).1.images =
        (self.images.filter fun i => !add_trim_predicate i) ++ [R2] := by
      rw [him2, hfilter1, filter_keep_idem]
    refine ⟨⟨R1, ?_, hR1i⟩, ?_, ?_, by omega⟩
    · rw [him1]
      exact List.mem_append_right _ (List.mem_singleton_self R1)
    · rw [img_by_internal_id]
      rw [show (grman_handle_command env2
          (grman_handle_command env1 self g1 p1).1 g2 p2).1.images =
        (self.images.filter fun i => !add_trim_predicate i) ++ [R2]
        from him2']
      apply (scanFind_eq_none_iff _ _).mpr
      intro x hx
      rcases List.mem_append.mp hx with hx | hx
      · have hxm := List.mem_of_mem_filter hx
        have := hwf.2.2.1 x hxm
        simp only [beq_eq_false_iff_ne, ne_eq]
        omega
      · have : x = R2 := by simpa using hx
        subst this
        simp only [beq_eq_false_iff_ne, ne_eq]
        omega
    · refine ⟨R2, ?_, hR2i, hR2c⟩
      rw [him2']
      exact List.mem_append_right _ (List.mem_singleton_self R2)
  · intro env self g payload fi r hwf hact hid hmore hfi hr hrc hrr hrl
    obtain ⟨R, him, hkey, -⟩ :=
      anon_step env self g payload fi hact hid hmore hfi
    have hRi : R.internal_id = self.internal_id_counter := by
      have := congrArg (fun k => k.1) hkey
      simpa [identKey] using this
    have hkeep : (fun i => !add_trim_predicate i) r = true := by
      simp [add_trim_predicate, hrc, hrr, hrl]
    constructor
    · rw [him]
      exact List.mem_append_left _ (List.mem_filter.mpr ⟨hr, hkeep⟩)
    · refine ⟨R, ?_, hRi, ?_⟩
      · rw [him]
        exact List.mem_append_right _ (List.mem_singleton_self R)
      · have := hwf.2.2.1 r hr
        omega

/-- Witness for the C9 theorem: reusing client id 5 over the store holding
its loaded 8 old bytes ends with the record's buffer holding exactly the 8
new bytes (or empty), never a mix. -/
theorem reuse_client_id_resets_staging_witness :
    (imgAt (handle_add_command env0 selfClient5
        { cmdRGBA8 with id := 5 } bytes9).1 0).load_data.buf = some [] ∨
    (imgAt (handle_add_command env0 selfClient5
        { cmdRGBA8 with id := 5 } bytes9).1 0).load_data.buf =
      some (bytes9.take ({ cmdRGBA8 with id := 5 } :
        GraphicsCommand).payload_sz) :=
  (reuse_client_id_resets_staging env0 selfClient5
    { cmdRGBA8 with id := 5 } bytes9 0 (4, true) (by decide) (by decide)
    (by decide)).2 (Or.inl rfl) rfl rfl (by decide)

/-- Witness for the C1 theorem: at the fresh manager and two concrete
anonymous RGBA commands, the second command's store no longer contains a
record with internal id 1. -/
theorem anon_transmissions_amended_witness :
    img_by_internal_id
      (grman_handle_command env0
        (grman_handle_command env0 (grman_realloc 24 80) cmdRGBA8
          bytes8).1 cmdRGBA8 bytes8).1 1 = none :=
  (anon_transmissions_amended.1 env0 env0 (grman_realloc 24 80) cmdRGBA8
    cmdRGBA8 bytes8 bytes8 (4, true) (4, true)
    (by refine ⟨?_, ?_, ?_, ?_⟩ <;> simp [IdWF, grman_realloc])
    (Or.inl rfl) rfl rfl (by decide)
    (Or.inl rfl) rfl rfl (by decide)).2.1

/-! Concrete scenario theorems. -/

/-- C8: transmitting format RGBA32 (32), width 2, height 1 over the direct
medium without compression in one chunk of exactly 8 bytes yields a record
with data_loaded true, width 2, height 1 and decoded data equal to the 8
input bytes verbatim (the buffer holds exactly the payload and `data` points
at it); the same command with only a 4-byte chunk reports insufficient image
data (4 < 8) and leaves the record with data_loaded false. -/
theorem rgba_2x1_direct_scenario :
    ((imgAt (grman_handle_command env0 (grman_realloc 24 80) cmdRGBA8
        bytes8).1 0).data_loaded = true ∧
     (imgAt (grman_handle_command env0 (grman_realloc 24 80) cmdRGBA8
        bytes8).1 0).width = 2 ∧
     (imgAt (grman_handle_command env0 (grman_realloc 24 80) cmdRGBA8
        bytes8).1 0).height = 1 ∧
     (imgAt (grman_handle_command env0 (grman_realloc 24 80) cmdRGBA8
        bytes8).1 0).load_data.buf = some bytes8 ∧
     (imgAt (grman_handle_command env0 (grman_realloc 24 80) cmdRGBA8
        bytes8).1 0).load_data.data = DataPtr.bufPtr ∧
     (grman_handle_command env0 (grman_realloc 24 80) cmdRGBA8 bytes8).2 =
       none) ∧
    ((imgAt (grman_handle_command env0 (grman_realloc 24 80)
        { cmdRGBA8 with payload_sz := 4 } [1, 2, 3, 4]).1 0).data_loaded =
       false ∧
     (grman_handle_command env0 (grman_realloc 24 80)
        { cmdRGBA8 with payload_sz := 4 } [1, 2, 3, 4]).2 =
       some (GError.insufficientData 4 8)) := by
  decide

/-- C1 counterexample: after two consecutive anonymous (client_id = 0) new
transmissions from a fresh manager, the store holds a single record, and the
first transmission's record (internal id 1, present and fully loaded after
the first command) is no longer retrievable by its internal id: the sweep
preceding the second command removed the unreferenced anonymous record. -/
theorem anon_twice_removes_first :
    (img_by_internal_id
        (runCmds [(env0, cmdRGBA8, bytes8)] (grman_realloc 24 80)) 1 =
      some 0 ∧
     (imgAt (runCmds [(env0, cmdRGBA8, bytes8)] (grman_realloc 24 80))
        0).data_loaded = true) ∧
    ((runCmds [(env0, cmdRGBA8, bytes8), (env0, cmdRGBA8, bytes8)]
        (grman_realloc 24 80)).images.length = 1 ∧
     img_by_internal_id
        (runCmds [(env0, cmdRGBA8, bytes8), (env0, cmdRGBA8, bytes8)]
          (grman_realloc 24 80)) 1 = none) := by
  decide

/-- C2 counterexample: a command with the unknown format code 99 and client
id 5 is reported as an error, yet it mutates existing state: the fully
loaded record with client id 5 (created by a previous valid command) has its
staging buffer released and its data_loaded flag reset to false. -/
theorem unknown_format_mutates_state :
    ((imgAt (runCmds [(env0, { cmdRGBA8 with id := 5 }, bytes8)]
        (grman_realloc 24 80)) 0).data_loaded = true ∧
     (imgAt (runCmds [(env0, { cmdRGBA8 with id := 5 }, bytes8)]
        (grman_realloc 24 80)) 0).load_data.buf = some bytes8) ∧
    ((grman_handle_command env0
        (runCmds [(env0, { cmdRGBA8 with id := 5 }, bytes8)]
          (grman_realloc 24 80))
        { cmdRGBA8 with id := 5, format := 99, payload_sz := 0 } []).2 =
       some (GError.unknownFormat 99) ∧
     (imgAt (grman_handle_command env0
        (runCmds [(env0, { cmdRGBA8 with id := 5 }, bytes8)]
          (grman_realloc 24 80))
        { cmdRGBA8 with id := 5, format := 99, payload_sz := 0 } []).1
        0).data_loaded = false ∧
     (imgAt (grman_handle_command env0
        (runCmds [(env0, { cmdRGBA8 with id := 5 }, bytes8)]
          (grman_realloc 24 80))
        { cmdRGBA8 with id := 5, format := 99, payload_sz := 0 } []).1
        0).load_data.buf = none) := by
  decide

/-- C3 counterexample: start a direct multi-chunk load (more flag set, 2
bytes accumulated, loading_image = 1), then send a new transmission with the
unknown format code 99.  The sweep preceding the new transmission removes
the unfinished record with internal id 1, the command errors out on the
format switch, and processing ends with loading_image still 1 although no
record with internal id 1 exists: the protocol error neither returned the
machine to Idle nor left loading_image pointing at a live record. -/
theorem loading_image_left_dangling :
    (runCmds [(env0, { cmdRGBA8 with more := true, payload_sz := 2 },
                 [1, 2]),
              (env0, { cmdRGBA8 with format := 99, payload_sz := 0 }, [])]
        (grman_realloc 24 80)).loading_image = 1 ∧
    img_by_internal_id
      (runCmds [(env0, { cmdRGBA8 with more := true, payload_sz := 2 },
                   [1, 2]),
                (env0, { cmdRGBA8 with format := 99, payload_sz := 0 }, [])]
        (grman_realloc 24 80)) 1 = none := by
  decide

/-- C7: at the failing input (the 8-byte RGBA 2x1 payload split into two
4-byte direct chunks, the first flagged more), the code diverges from the
claim.  The single-chunk run ends with a loaded record holding all 8 bytes.
In the split run the terminating chunk carries no more flag, so it does not
satisfy the continuation condition (which requires the more flag) and is
treated as a brand-new transmission: the sweep removes the half-loaded
record of chunk one, and the final store holds one fresh record (internal
id 2) containing only the second chunk's 4 bytes, not loaded (insufficient
data).  A split transmission therefore cannot reproduce the single-chunk
result; no multi-chunk direct load can ever complete. -/
theorem split_transmission_diverges :
    ((imgAt (runCmds [(env0, cmdRGBA8, bytes8)] (grman_realloc 24 80))
        0).data_loaded = true ∧
     (imgAt (runCmds [(env0, cmdRGBA8, bytes8)] (grman_realloc 24 80))
        0).load_data.buf = some bytes8) ∧
    ((runCmds [(env0, { cmdRGBA8 with more := true, payload_sz := 4 },
                  [1, 2, 3, 4]),
               (env0, { cmdRGBA8 with payload_sz := 4 }, [5, 6, 7, 8])]
        (grman_realloc 24 80)).images.length = 1 ∧
     (imgAt (runCmds [(env0, { cmdRGBA8 with more := true, payload_sz := 4 },
                  [1, 2, 3, 4]),
               (env0, { cmdRGBA8 with payload_sz := 4 }, [5, 6, 7, 8])]
        (grman_realloc 24 80)) 0).data_loaded = false ∧
     (imgAt (runCmds [(env0, { cmdRGBA8 with more := true, payload_sz := 4 },
                  [1, 2, 3, 4]),
               (env0, { cmdRGBA8 with payload_sz := 4 }, [5, 6, 7, 8])]
        (grman_realloc 24 80)) 0).load_data.buf = some [5, 6, 7, 8] ∧
     (imgAt (runCmds [(env0, { cmdRGBA8 with more := true, payload_sz := 4 },
                  [1, 2, 3, 4]),
               (env0, { cmdRGBA8 with payload_sz := 4 }, [5, 6, 7, 8])]
        (grman_realloc 24 80)) 0).internal_id = 2 ∧
     img_by_internal_id
       (runCmds [(env0, { cmdRGBA8 with more := true, payload_sz := 4 },
                    [1, 2, 3, 4]),
                 (env0, { cmdRGBA8 with payload_sz := 4 }, [5, 6, 7, 8])]
         (grman_realloc 24 80)) 1 = none) := by
  decide

/-- C5: the capacity guard of the direct medium.  Whenever the chunk size
reaches the remaining reserved capacity, the chunk is rejected with the
too-much-data error and the state (hence buf_used, and the still-false
data_loaded flag of the record mid-load) is exactly unchanged, before any
byte is written; a payload one byte larger than the whole buffer capacity is
always rejected this way; and whenever bytes are written (the guard is
passed) the buffer usage after the write stays strictly below the reserved
capacity, so no write past the buffer capacity ever occurs. -/
theorem direct_oversized_chunk_rejected (env : Env) (self : GraphicsManager)
    (idx : Nat) (g : GraphicsCommand) (payload : List Nat)
    (hused : (imgAt self idx).load_data.buf_used ≤
             (imgAt self idx).load_data.buf_capacity) :
    ((imgAt self idx).load_data.buf_capacity -
        (imgAt self idx).load_data.buf_used ≤ g.payload_sz →
      media_phase env self idx g payload 100 =
        (self, some GError.tooMuchData)) ∧
    (g.payload_sz = (imgAt self idx).load_data.buf_capacity + 1 →
      media_phase env self idx g payload 100 =
        (self, some GError.tooMuchData)) ∧
    (g.payload_sz < (imgAt self idx).load_data.buf_capacity -
        (imgAt self idx).load_data.buf_used →
      (imgAt (media_phase env self idx g payload 100).1 idx).load_data.buf_used
          = (imgAt self idx).load_data.buf_used + g.payload_sz ∧
      (imgAt self idx).load_data.buf_used + g.payload_sz <
        (imgAt self idx).load_data.buf_capacity) := by
  refine ⟨?_, ?_, ?_⟩
  · intro h
    simp [media_phase, h]
  · intro h
    have h2 : (imgAt self idx).load_data.buf_capacity -
        (imgAt self idx).load_data.buf_used ≤ g.payload_sz := by omega
    simp [media_phase, h2]
  · intro h
    have hidx : idx < self.images.length := by
      by_contra hni
      have hdef : imgAt self idx = {} := by
        simp only [imgAt]
        exact getD_eq_default_of_le _ _ _ (Nat.le_of_not_lt hni)
      rw [hdef] at h
      simp at h
    have hng : ¬ ((imgAt self idx).load_data.buf_capacity -
        (imgAt self idx).load_data.buf_used ≤ g.payload_sz) :=
      Nat.not_le.mpr h
    cases hm : g.more with
    | true =>
        have hmedia : media_phase env self idx g payload 100 =
            (modifyImg self idx (writeChunk g payload), none) := by
          simp [media_phase, hng, hm]
        rw [hmedia]
        rw [imgAt_modifyImg_self _ _ _ hidx]
        exact ⟨rfl, by omega⟩
    | false =>
        have h1 : idx <
            (modifyImg self idx (writeChunk g payload)).images.length := by
          rw [length_modifyImg]; exact hidx
        have himgs : (media_phase env self idx g payload 100).1.images =
            (modifyImg (modifyImg self idx (writeChunk g payload)) idx
              markLoaded).images := by
          simp [media_phase, hng, hm]
        have himg : imgAt (media_phase env self idx g payload 100).1 idx =
            markLoaded (writeChunk g payload (imgAt self idx)) := by
          show (media_phase env self idx g payload 100).1.images.getD idx {} =
            _
          rw [himgs]
          show imgAt (modifyImg (modifyImg self idx (writeChunk g payload))
            idx markLoaded) idx = _
          rw [imgAt_modifyImg_self _ _ _ h1, imgAt_modifyImg_self _ _ _ hidx]
        rw [himg]
        exact ⟨rfl, by omega⟩

/-- Witness for the C5 theorem: on the concrete one-record store whose
buffer has capacity 5 and no used bytes, a 6-byte chunk (one byte larger
than the capacity) is rejected with the too-much-data error and the state
is unchanged. -/
theorem direct_oversized_chunk_rejected_witness :
    media_phase env0 capSelf 0 { cmdRGBA8 with payload_sz := 6 } [] 100 =
      (capSelf, some GError.tooMuchData) :=
  (direct_oversized_chunk_rejected env0 capSelf 0
    { cmdRGBA8 with payload_sz := 6 } [] (by decide)).2.1 (by decide)

/-- C10: the acceptance condition of the direct medium is strictly
payload_sz < buf_capacity - buf_used.  A chunk whose size exactly equals the
remaining reserved capacity is rejected with the too-much-data error, and
every accepted chunk leaves buf_used at most buf_capacity - 1, so at least
one byte of the reserved capacity can never be occupied by payload data. -/
theorem direct_exact_fit_rejected (env : Env) (self : GraphicsManager)
    (idx : Nat) (g : GraphicsCommand) (payload : List Nat)
    (hused : (imgAt self idx).load_data.buf_used ≤
             (imgAt self idx).load_data.buf_capacity) :
    (g.payload_sz = (imgAt self idx).load_data.buf_capacity -
        (imgAt self idx).load_data.buf_used →
      media_phase env self idx g payload 100 =
        (self, some GError.tooMuchData)) ∧
    (g.payload_sz < (imgAt self idx).load_data.buf_capacity -
        (imgAt self idx).load_data.buf_used →
      (media_phase env self idx g payload 100).2 = none ∧
      (imgAt (media_phase env self idx g payload 100).1 idx).load_data.buf_used
          ≤ (imgAt self idx).load_data.buf_capacity - 1) := by
  constructor
  · intro h
    simp [media_phase, Nat.le_of_eq h.symm]
  · intro h
    have hmain := (direct_oversized_chunk_rejected env self idx g payload
      hused).2.2 h
    have hng : ¬ ((imgAt self idx).load_data.buf_capacity -
        (imgAt self idx).load_data.buf_used ≤ g.payload_sz) :=
      Nat.not_le.mpr h
    refine ⟨?_, by omega⟩
    cases hm : g.more with
    | true => simp [media_phase, hng, hm]
    | false => simp [media_phase, hng, hm]

/-- Witness for the C10 theorem: on the concrete one-record store whose
buffer has capacity 5 and no used bytes, a 5-byte chunk (exactly the
remaining capacity) is rejected with the too-much-data error. -/
theorem direct_exact_fit_rejected_witness :
    media_phase env0 capSelf 0 { cmdRGBA8 with payload_sz := 5 } [] 100 =
      (capSelf, some GError.tooMuchData) :=
  (direct_exact_fit_rejected env0 capSelf 0
    { cmdRGBA8 with payload_sz := 5 } [] (by decide)).1 (by decide)

/-- C6: the decompression stage succeeds exactly when the deflate stream
decodes cleanly (the oracle yields its full content) and the produced bytes
exactly fill the expected-size output buffer: neither fewer (leftover
avail_out) nor more (output exhaustion before stream end).  On success the
old staging state is released (free_load_data) and replaced by the
decompressed bytes.  On failure inside command processing, the record's
prior staging state is untouched and only data_loaded is set to false. -/
theorem inflate_zlib_exact_size (zinf : List Nat → Option (List Nat))
    (ld : LoadData) (src : List Nat) :
    ((inflate_zlib zinf ld src).isSome ↔
      ∃ out, zinf src = some out ∧ out.length = ld.data_sz) ∧
    (∀ out, zinf src = some out → out.length = ld.data_sz →
      inflate_zlib zinf ld src =
        some { free_load_data ld with
               buf := some out, buf_capacity := ld.data_sz,
               buf_used := ld.data_sz }) ∧
    (∀ (env : Env) (self : GraphicsManager) (idx : Nat)
       (g : GraphicsCommand) (tt : Nat),
      (imgAt self idx).data_loaded = true →
      g.compressed = 122 →
      inflate_zlib env.zinf (imgAt self idx).load_data
          (current_bytes (imgAt self idx).load_data) = none →
      process_phase env self idx g tt =
        (modifyImg self idx markNotLoaded,
         some GError.inflateFailed)) := by
  refine ⟨?_, ?_, ?_⟩
  · cases hz : zinf src with
    | none => simp [inflate_zlib, hz]
    | some out =>
        by_cases hle : out.length ≤ ld.data_sz
        · by_cases hcap : ld.data_sz - out.length = 0
          · simp only [inflate_zlib, hz, if_pos hle, if_pos hcap]
            simp
            omega
          · simp only [inflate_zlib, hz, if_pos hle, if_neg hcap]
            simp
            omega
        · simp only [inflate_zlib, hz, if_neg hle]
          simp
          omega
  · intro out hz hlen
    have h0 : ld.data_sz - out.length = 0 := by omega
    simp only [inflate_zlib, hz, if_pos (Nat.le_of_eq hlen), if_pos h0]
    have : ld.data_sz - (ld.data_sz - out.length) = ld.data_sz := by omega
    rw [this]
  · intro env self idx g tt h1 h2 h3
    simp [process_phase, compression_stage, h1, h2, h3]

/-- Witness for the C6 theorem: a concrete oracle that decodes every stream
to the two bytes 9, 9, applied to a staging state expecting 2 decoded bytes,
succeeds and replaces the staging state by exactly those bytes. -/
theorem inflate_zlib_exact_size_witness :
    inflate_zlib (fun _ => some [9, 9]) { data_sz := 2 } [] =
      some { free_load_data { data_sz := 2 } with
             buf := some [9, 9], buf_capacity := 2, buf_used := 2 } :=
  (inflate_zlib_exact_size (fun _ => some [9, 9]) { data_sz := 2 } []).2.1
    [9, 9] rfl rfl

end Kitty
